import Mathlib

/-!
# SFGUI widget core (`src/SFGUI/Widget.cpp`)

A shallow embedding of `sfg::Widget`: geometry (allocation / requisition),
the invalidation and expose pipeline, the parent chain, the dispatch of input
events, and state and focus.

Modelling conventions.

* Widgets live in a store (`World`, a list); a widget is named by its index.
  The weak parent pointer `m_parent` is an optional index; `lock` yields the
  parent only while it is still in the store.
* `float` coordinates are exact rationals (finite values, exact arithmetic);
  `std::floor` is the integer floor.
* Recursion along the parent chain takes a fuel argument; `none` stands for a
  call that does not return (the chain is longer than the fuel, or cyclic) or
  for a call on an index outside the store.
* Signals (`OnSizeAllocate`, ...) and virtual hooks are recorded, in call
  order, in a trace of `Event`s. Virtual hooks have the default bodies of
  `Widget.cpp`; the two hooks without a default value there,
  `CalculateRequisition` and `InvalidateImpl` of subclasses, are parameters
  giving the value the hook returns for each widget. `HandleStateChange` takes
  its body from a `StateChangeHook`: the body of the base class, or an
  override that re-enters `SetState`.
* Button codes are the enumerators of `sf::Mouse::Button` (natural numbers);
  `m_mouse_button_down` is an integer with the sentinel -1.
-/

set_option linter.dupNamespace false

namespace sfg

/-- Two floats (`sf::Vector2f`). -/
structure Vector2f where
  x : ℚ
  y : ℚ
deriving DecidableEq

/-- Rectangle of floats (`sf::FloatRect`). -/
structure FloatRect where
  Left : ℚ
  Top : ℚ
  Width : ℚ
  Height : ℚ
deriving DecidableEq

/-- Modelled from the spec: the `State` enumeration of `Widget.hpp`, which is
not among the sources; `Widget.cpp` uses `NORMAL` and `ACTIVE`, the spec names
`NORMAL`, `ACTIVE`, `PRELIGHT`. -/
inductive State where
  | NORMAL
  | ACTIVE
  | PRELIGHT
deriving DecidableEq

/-- Modelled from the spec: the cached drawable (`RenderQueue`), whose class is
not among the sources. The spec gives it `compile()` and `setPosition(point)`;
`tag` tells apart the objects a build hook returns. -/
structure RenderQueue where
  tag : Nat
  position : Vector2f
  compiled : Bool
deriving DecidableEq

/-- Modelled from the spec: `RenderQueue::Compile`, the finalisation of the
draw commands. -/
def RenderQueue.Compile (d : RenderQueue) : RenderQueue :=
  { d with compiled := true }

/-- Modelled from the spec: `RenderQueue::SetPosition`. -/
def RenderQueue.SetPosition (d : RenderQueue) (p : Vector2f) : RenderQueue :=
  { d with position := p }

/-- The data members of `sfg::Widget` that `Widget.cpp` reads or writes. -/
structure Widget where
  m_sensitive : Bool
  m_visible : Bool
  m_state : State
  m_mouse_in : Bool
  m_mouse_button_down : Int
  m_allocation : FloatRect
  m_requisition : Vector2f
  m_custom_requisition : Option Vector2f
  m_invalidated : Bool
  m_drawable : Option RenderQueue
  m_parent : Option Nat
  m_focus_widget : Option Nat
  m_id : String
  m_class : String
deriving DecidableEq

/-- The constructor `Widget::Widget()`. -/
def Widget.Widget : Widget :=
  { m_sensitive := true
    m_visible := true
    m_state := State.NORMAL
    m_mouse_in := false
    m_mouse_button_down := -1
    m_allocation := ⟨0, 0, 0, 0⟩
    m_requisition := ⟨0, 0⟩
    m_custom_requisition := none
    m_invalidated := true
    m_drawable := none
    m_parent := none
    m_focus_widget := none
    m_id := ""
    m_class := "" }

/-- The store of widgets; a widget is named by its index. -/
abbrev World := List Widget

/-- Signals emitted and virtual hooks invoked, each with the widget it is
invoked on. `HandleChildInvalidate p c` is the call on the parent container
`p` for its child `c`; `Draw` is `target.Draw( m_drawable )`;
`SetActiveWidget` is `Context::Get().SetActiveWidget( shared_from_this() )`. -/
inductive Event where
  | HandleAbsolutePositionChange (self : Nat)
  | HandleAllocationChange (self : Nat) (oldallocation : FloatRect)
  | OnSizeAllocate (self : Nat)
  | OnSizeRequest (self : Nat)
  | HandleChildInvalidate (parent : Nat) (child : Nat)
  | InvalidateImpl (self : Nat)
  | Draw (self : Nat) (drawable : RenderQueue)
  | HandleExpose (self : Nat)
  | SetActiveWidget (self : Nat)
  | OnMouseEnter (self : Nat)
  | HandleMouseEnter (self : Nat) (x : Int) (y : Int)
  | OnMouseMove (self : Nat)
  | OnMouseLeave (self : Nat)
  | HandleMouseLeave (self : Nat) (x : Int) (y : Int)
  | HandleMouseMoveEvent (self : Nat) (x : Int) (y : Int)
  | HandleMouseButtonEvent (self : Nat) (button : Nat) (press : Bool) (x : Int) (y : Int)
  | OnMouseButtonPress (self : Nat)
  | HandleMouseClick (self : Nat) (button : Nat) (x : Int) (y : Int)
  | OnMouseButtonRelease (self : Nat)
  | HandleKeyEvent (self : Nat) (key : Int) (press : Bool)
  | OnKeyPress (self : Nat)
  | OnKeyRelease (self : Nat)
  | HandleTextEvent (self : Nat) (character : Nat)
  | OnText (self : Nat)
  | HandleStateChange (self : Nat) (old_state : State)
  | OnStateChange (self : Nat)
  | OnLostFocus (self : Nat)
  | OnGainFocus (self : Nat)
  | HandleFocusChange (self : Nat) (focused_widget : Nat)
deriving DecidableEq

/-- Pixel alignment, `std::floor( v + .5f )`. -/
def pixel (v : ℚ) : ℚ := ((⌊v + 1 / 2⌋ : ℤ) : ℚ)

/-- The call `m_parent.lock()`: the parent, when the weak pointer is set and its target
is still alive. -/
def lock (s : World) (m_parent : Option Nat) : Option Nat :=
  match m_parent with
  | none => none
  | some p => if p < s.length then some p else none

/-- Method `Widget::GetAbsolutePosition`. -/
def GetAbsolutePosition : Nat → World → Nat → Option Vector2f
  | 0, _, _ => none
  | fuel + 1, s, self =>
    match s[self]? with
    | none => none
    | some w =>
      match lock s w.m_parent with
      | none => some ⟨w.m_allocation.Left, w.m_allocation.Top⟩
      | some parent =>
        match GetAbsolutePosition fuel s parent with
        | none => none
        | some parent_position =>
          some ⟨parent_position.x + w.m_allocation.Left,
                parent_position.y + w.m_allocation.Top⟩

/-- Method `Widget::UpdateDrawablePosition`, which is also the default body of the
hook `HandleAbsolutePositionChange`. -/
def UpdateDrawablePosition (fuel : Nat) (s : World) (self : Nat) : Option World :=
  match s[self]? with
  | none => none
  | some w =>
    match w.m_drawable with
    | none => some s
    | some d =>
      match GetAbsolutePosition fuel s self with
      | none => none
      | some p => some (s.set self { w with m_drawable := some (d.SetPosition p) })

/-- Method `Widget::Invalidate`. -/
def Invalidate (s : World) (self : Nat) : Option (World × List Event) :=
  match s[self]? with
  | none => none
  | some w =>
    if w.m_invalidated then some (s, [])
    else
      let s1 := s.set self { w with m_invalidated := true }
      match lock s w.m_parent with
      | some parent => some (s1, [Event.HandleChildInvalidate parent self])
      | none => some (s1, [])

/-- Method `Widget::SetAllocation`. -/
def SetAllocation (fuel : Nat) (s : World) (self : Nat) (rect : FloatRect) :
    Option (World × List Event) :=
  match s[self]? with
  | none => none
  | some w =>
    let oldallocation := w.m_allocation
    let m_allocation : FloatRect :=
      ⟨pixel rect.Left, pixel rect.Top, pixel rect.Width, pixel rect.Height⟩
    let s1 := s.set self { w with m_allocation := m_allocation }
    if oldallocation.Top = m_allocation.Top ∧
       oldallocation.Left = m_allocation.Left ∧
       oldallocation.Width = m_allocation.Width ∧
       oldallocation.Height = m_allocation.Height then
      some (s1, [])
    else
      match UpdateDrawablePosition fuel s1 self with
      | none => none
      | some s2 =>
        match Invalidate s2 self with
        | none => none
        | some (s3, t) =>
          some (s3, [Event.HandleAbsolutePositionChange self,
                     Event.HandleAllocationChange self oldallocation,
                     Event.OnSizeAllocate self] ++ t)

/-- Method `Widget::SetPosition`. -/
def SetPosition (fuel : Nat) (s : World) (self : Nat) (position : Vector2f) :
    Option (World × List Event) :=
  match s[self]? with
  | none => none
  | some w =>
    let oldallocation := w.m_allocation
    let m_allocation : FloatRect :=
      { w.m_allocation with Left := pixel position.x, Top := pixel position.y }
    let s1 := s.set self { w with m_allocation := m_allocation }
    if oldallocation.Top = m_allocation.Top ∧
       oldallocation.Left = m_allocation.Left then
      some (s1, [])
    else
      match UpdateDrawablePosition fuel s1 self with
      | none => none
      | some s2 =>
        match UpdateDrawablePosition fuel s2 self with
        | none => none
        | some s3 =>
          some (s3, [Event.HandleAbsolutePositionChange self,
                     Event.HandleAllocationChange self oldallocation,
                     Event.OnSizeAllocate self])

/-- The requisition `Widget::RequestResize` stores: the computed one, with
the axes of the custom requisition that are positive put over it. -/
def combineRequisition (computed : Vector2f) (m_custom_requisition : Option Vector2f) :
    Vector2f :=
  match m_custom_requisition with
  | none => computed
  | some c =>
    ⟨if c.x > 0 then c.x else computed.x, if c.y > 0 then c.y else computed.y⟩

/-- Method `Widget::RequestResize`. `CalculateRequisition self` is the value the
virtual hook of the same name returns for widget `self`. -/
def RequestResize (CalculateRequisition : Nat → Vector2f) :
    Nat → World → Nat → Option (World × List Event)
  | 0, _, _ => none
  | fuel + 1, s, self =>
    match s[self]? with
    | none => none
    | some w =>
      let m_requisition := combineRequisition (CalculateRequisition self) w.m_custom_requisition
      let s1 := s.set self { w with m_requisition := m_requisition }
      match lock s w.m_parent with
      | some parent =>
        match RequestResize CalculateRequisition fuel s1 parent with
        | none => none
        | some (s2, t) => some (s2, Event.OnSizeRequest self :: t)
      | none =>
        let allocation : FloatRect :=
          ⟨w.m_allocation.Left, w.m_allocation.Top,
           max w.m_allocation.Width m_requisition.x,
           max w.m_allocation.Height m_requisition.y⟩
        match SetAllocation (fuel + 1) s1 self allocation with
        | none => none
        | some (s2, t) => some (s2, Event.OnSizeRequest self :: t)

/-- The first half of `Widget::Expose( CullingTarget& )`: the rebuild of the
cached drawable when the widget is invalidated. `InvalidateImpl self` is the
value the virtual build hook returns for widget `self` (`none` for a null
pointer, as the base class returns). -/
def ExposeRebuild (InvalidateImpl : Nat → Option RenderQueue) (fuel : Nat) (s : World)
    (self : Nat) : Option (World × List Event) :=
  match s[self]? with
  | none => none
  | some w =>
    if w.m_invalidated then
      match InvalidateImpl self with
      | none =>
        some (s.set self { w with m_invalidated := false, m_drawable := none },
              [Event.InvalidateImpl self])
      | some d =>
        let w1 : Widget := { w with m_invalidated := false, m_drawable := some d.Compile }
        let s1 := s.set self w1
        match GetAbsolutePosition fuel s1 self with
        | none => none
        | some p =>
          some (s1.set self { w1 with m_drawable := some (d.Compile.SetPosition p) },
                [Event.InvalidateImpl self])
    else some (s, [])

/-- Method `Widget::Expose( CullingTarget& )`. The hook `HandleExpose` (empty in the
base class, the exposure of the children in a container) is recorded in the
trace. -/
def Expose (InvalidateImpl : Nat → Option RenderQueue) (fuel : Nat) (s : World)
    (self : Nat) : Option (World × List Event) :=
  match ExposeRebuild InvalidateImpl fuel s self with
  | none => none
  | some (s1, t) =>
    match s1[self]? with
    | none => none
    | some w =>
      if w.m_visible then
        match w.m_drawable with
        | some d => some (s1, t ++ [Event.Draw self d, Event.HandleExpose self])
        | none => some (s1, t ++ [Event.HandleExpose self])
      else some (s1, t)

/-! ## Input events, state and focus -/

/-- Modelled from the spec: `sf::Rect::Contains` of the SFML library, which is
not among the sources: the hit test of a point against a rectangle (left and
top edge inside, right and bottom edge outside). -/
def FloatRect.Contains (r : FloatRect) (x y : ℚ) : Bool :=
  decide (r.Left ≤ x ∧ x < r.Left + r.Width ∧ r.Top ≤ y ∧ y < r.Top + r.Height)

/-- The input events `sf::Event` that `Widget::HandleEvent` tells apart, each
with the members of the union it reads; `Other` is every other `Type` (the
`default` label). Button codes are the enumerators of `sf::Mouse::Button`. -/
inductive sf.Event where
  | MouseMoved (X : Int) (Y : Int)
  | MouseButtonPressed (Button : Nat) (X : Int) (Y : Int)
  | MouseButtonReleased (Button : Nat) (X : Int) (Y : Int)
  | KeyPressed (Code : Int)
  | KeyReleased (Code : Int)
  | TextEntered (Unicode : Nat)
  | Other
deriving DecidableEq

/-- Method `Widget::HandleEvent`. -/
def HandleEvent (s : World) (self : Nat) (event : sf.Event) : Option (World × List Event) :=
  match s[self]? with
  | none => none
  | some w =>
    if w.m_visible = false then some (s, [])
    else
      let r : Widget × List Event :=
        match event with
        | sf.Event.MouseMoved X Y =>
          if w.m_allocation.Contains (X : ℚ) (Y : ℚ) = true then
            if w.m_mouse_in = false then
              ({ w with m_mouse_in := true },
               [Event.OnMouseEnter self, Event.HandleMouseEnter self X Y,
                Event.OnMouseMove self, Event.HandleMouseMoveEvent self X Y])
            else
              (w, [Event.OnMouseMove self, Event.HandleMouseMoveEvent self X Y])
          else if w.m_mouse_in = true then
            ({ w with m_mouse_in := false },
             [Event.OnMouseLeave self, Event.HandleMouseLeave self X Y,
              Event.HandleMouseMoveEvent self X Y])
          else
            (w, [Event.HandleMouseMoveEvent self X Y])
        | sf.Event.MouseButtonPressed Button X Y =>
          if w.m_mouse_button_down = -1 then
            if w.m_mouse_in = true then
              ({ w with m_mouse_button_down := (Button : Int) },
               [Event.HandleMouseButtonEvent self Button true X Y,
                Event.OnMouseButtonPress self])
            else (w, [])
          else (w, [])
        | sf.Event.MouseButtonReleased Button X Y =>
          if w.m_mouse_button_down = (Button : Int) then
            if w.m_mouse_in = true then
              ({ w with m_mouse_button_down := -1 },
               [Event.HandleMouseClick self Button X Y, Event.OnMouseButtonRelease self,
                Event.HandleMouseButtonEvent self Button false X Y])
            else
              ({ w with m_mouse_button_down := -1 },
               [Event.OnMouseButtonRelease self,
                Event.HandleMouseButtonEvent self Button false X Y])
          else
            (w, [Event.HandleMouseButtonEvent self Button false X Y])
        | sf.Event.KeyPressed Code =>
          if w.m_state = State.ACTIVE then
            (w, [Event.HandleKeyEvent self Code true, Event.OnKeyPress self])
          else (w, [])
        | sf.Event.KeyReleased Code =>
          if w.m_state = State.ACTIVE then
            (w, [Event.HandleKeyEvent self Code false, Event.OnKeyRelease self])
          else (w, [])
        | sf.Event.TextEntered Unicode =>
          if w.m_state = State.ACTIVE then
            (w, [Event.HandleTextEvent self Unicode, Event.OnText self])
          else (w, [])
        | sf.Event.Other => (w, [])
      some (s.set self r.1, Event.SetActiveWidget self :: r.2)

/-- A run of `HandleEvent` over a list of input events, in order, with the
concatenated trace. -/
def HandleEvents : List sf.Event → World → Nat → Option (World × List Event)
  | [], s, _ => some (s, [])
  | event :: rest, s, self =>
    match HandleEvent s self event with
    | none => none
    | some (s1, t1) =>
      match HandleEvents rest s1 self with
      | none => none
      | some (s2, t2) => some (s2, t1 ++ t2)

/-- The body of the virtual hook `HandleStateChange` of each widget: `none`
is the body of the base class, `Invalidate()`; `some state` is an override of
a subclass whose body is the re-entrant call `SetState( state )`. -/
abbrev StateChangeHook := Nat → Option State

/-- The hooks of the base class `Widget`. -/
def defaultHooks : StateChangeHook := fun _ => none

mutual

/-- Method `Widget::SetState`. -/
def SetState (hook : StateChangeHook) : Nat → World → Nat → State → Option (World × List Event)
  | 0, _, _, _ => none
  | fuel + 1, s, self, state =>
    match s[self]? with
    | none => none
    | some w =>
      if w.m_state = state then some (s, [])
      else
        let old_state := w.m_state
        let m_state := state
        let s1 := s.set self { w with m_state := m_state }
        let changed : Option (World × List Event) :=
          if m_state ≠ old_state then
            match HandleStateChange hook fuel s1 self old_state with
            | none => none
            | some (s2, t) => some (s2, t ++ [Event.OnStateChange self])
          else some (s1, [])
        match changed with
        | none => none
        | some (s2, t) =>
          if state = State.ACTIVE then
            match GrabFocus hook fuel s2 self self with
            | none => none
            | some (s3, t3) => some (s3, t ++ t3)
          else some (s2, t)
termination_by structural fuel => fuel

/-- The virtual hook `Widget::HandleStateChange`, with the body `hook` gives
it for the widget. -/
def HandleStateChange (hook : StateChangeHook) :
    Nat → World → Nat → State → Option (World × List Event)
  | 0, _, _, _ => none
  | fuel + 1, s, self, old_state =>
    match hook self with
    | none =>
      match Invalidate s self with
      | none => none
      | some (s1, t) => some (s1, Event.HandleStateChange self old_state :: t)
    | some state =>
      match SetState hook fuel s self state with
      | none => none
      | some (s1, t) => some (s1, Event.HandleStateChange self old_state :: t)
termination_by structural fuel => fuel

/-- Method `Widget::GrabFocus( Ptr widget )`. -/
def GrabFocus (hook : StateChangeHook) : Nat → World → Nat → Nat → Option (World × List Event)
  | 0, _, _, _ => none
  | fuel + 1, s, self, widget =>
    match s[self]? with
    | none => none
    | some w =>
      match lock s w.m_parent with
      | some parent => GrabFocus hook fuel s parent widget
      | none =>
        let notified : Option (World × List Event) :=
          match w.m_focus_widget with
          | some m_focus_widget =>
            match HandleFocusChange hook fuel s m_focus_widget widget with
            | none => none
            | some (s1, t) => some (s1, Event.OnLostFocus m_focus_widget :: t)
          | none => some (s, [])
        match notified with
        | none => none
        | some (s1, t1) =>
          match s1[self]? with
          | none => none
          | some w1 =>
            let s2 := s1.set self { w1 with m_focus_widget := some widget }
            match HandleFocusChange hook fuel s2 widget widget with
            | none => none
            | some (s3, t3) => some (s3, t1 ++ Event.OnGainFocus widget :: t3)
termination_by structural fuel => fuel

/-- The virtual hook `Widget::HandleFocusChange` (body of the base class). -/
def HandleFocusChange (hook : StateChangeHook) :
    Nat → World → Nat → Nat → Option (World × List Event)
  | 0, _, _, _ => none
  | fuel + 1, s, self, focused_widget =>
    match s[self]? with
    | none => none
    | some _ =>
      if focused_widget ≠ self then
        match SetState hook fuel s self State.NORMAL with
        | none => none
        | some (s1, t) => some (s1, Event.HandleFocusChange self focused_widget :: t)
      else some (s, [Event.HandleFocusChange self focused_widget])
termination_by structural fuel => fuel

end

/-- Method `Widget::HasFocus( Ptr widget )`. -/
def HasFocus : Nat → World → Nat → Nat → Option Bool
  | 0, _, _, _ => none
  | fuel + 1, s, self, widget =>
    match s[self]? with
    | none => none
    | some w =>
      match lock s w.m_parent with
      | none => some (decide (w.m_focus_widget = some widget))
      | some parent => HasFocus fuel s parent widget

/-- Method `Widget::Refresh`. -/
def Refresh (CalculateRequisition : Nat → Vector2f) (fuel : Nat) (s : World) (self : Nat) :
    Option (World × List Event) :=
  match s[self]? with
  | none => none
  | some w =>
    let old_allocation := w.m_allocation
    match RequestResize CalculateRequisition fuel s self with
    | none => none
    | some (s1, t1) =>
      match s1[self]? with
      | none => none
      | some w1 =>
        let refired : Option (World × List Event) :=
          if old_allocation.Left = w1.m_allocation.Left ∧
             old_allocation.Top = w1.m_allocation.Top ∧
             old_allocation.Width = w1.m_allocation.Width ∧
             old_allocation.Height = w1.m_allocation.Height then
            match UpdateDrawablePosition fuel s1 self with
            | none => none
            | some s2 =>
              some (s2, [Event.HandleAbsolutePositionChange self,
                         Event.HandleAllocationChange self old_allocation])
          else some (s1, [])
        match refired with
        | none => none
        | some (s2, t2) =>
          match Invalidate s2 self with
          | none => none
          | some (s3, t3) => some (s3, t1 ++ t2 ++ t3)

/-! ## Specification vocabulary -/

/-- The widget `self` followed by its ancestors up to the root, as far as
`fuel` parent links reach. -/
def ParentChain : Nat → World → Nat → Option (List Nat)
  | 0, _, _ => none
  | fuel + 1, s, self =>
    match s[self]? with
    | none => none
    | some w =>
      match lock s w.m_parent with
      | none => some [self]
      | some parent =>
        match ParentChain fuel s parent with
        | none => none
        | some c => some (self :: c)

/-- Left edge of the allocation of widget `i` (0 outside the store). -/
def originLeft (s : World) (i : Nat) : ℚ :=
  match s[i]? with
  | some w => w.m_allocation.Left
  | none => 0

/-- Top edge of the allocation of widget `i` (0 outside the store). -/
def originTop (s : World) (i : Nat) : ℚ :=
  match s[i]? with
  | some w => w.m_allocation.Top
  | none => 0

/-- The result of `n` calls of `Invalidate` in a row, with the concatenated
trace. -/
def InvalidateTimes : Nat → World → Nat → Option (World × List Event)
  | 0, s, _ => some (s, [])
  | n + 1, s, self =>
    match Invalidate s self with
    | none => none
    | some (s1, t1) =>
      match InvalidateTimes n s1 self with
      | none => none
      | some (s2, t2) => some (s2, t1 ++ t2)

/-- Number of invocations of the build hook `InvalidateImpl` in a trace. -/
def buildCount (t : List Event) : Nat :=
  t.countP fun e =>
    match e with
    | Event.InvalidateImpl _ => true
    | _ => false

/-- Whether the event is a draw call on the target. -/
def Event.isDraw : Event → Bool
  | Event.Draw _ _ => true
  | _ => false

/-- A rectangle whose four components are whole numbers. -/
def PixelAligned (r : FloatRect) : Prop :=
  pixel r.Left = r.Left ∧ pixel r.Top = r.Top ∧
  pixel r.Width = r.Width ∧ pixel r.Height = r.Height

/-- A root at (100, 50), its child at (10, 20) and its grandchild at (1, 2). -/
def threeLevels : World :=
  [{ Widget.Widget with m_allocation := ⟨100, 50, 300, 200⟩ },
   { Widget.Widget with m_allocation := ⟨10, 20, 80, 60⟩, m_parent := some 0 },
   { Widget.Widget with m_allocation := ⟨1, 2, 30, 10⟩, m_parent := some 1 }]

/-- A root and a child of it that is valid (not invalidated). -/
def validChild : World :=
  [Widget.Widget, { Widget.Widget with m_invalidated := false, m_parent := some 0 }]

/-- A hidden, valid widget that holds a cached drawable. -/
def hiddenWidget : Widget :=
  { Widget.Widget with
    m_visible := false
    m_invalidated := false
    m_drawable := some ⟨7, ⟨0, 0⟩, true⟩ }

/-- Number of invocations of the allocation-change hook of widget `self` in a
trace. -/
def allocationChangeCount (self : Nat) (t : List Event) : Nat :=
  t.countP fun e =>
    match e with
    | Event.HandleAllocationChange i _ => decide (i = self)
    | _ => false

/-- The root above widget `self`, as far as `fuel` parent links reach: the
widget `GrabFocus` and `HasFocus` climb to. -/
def RootOf : Nat → World → Nat → Option Nat
  | 0, _, _ => none
  | fuel + 1, s, self =>
    match s[self]? with
    | none => none
    | some w =>
      match lock s w.m_parent with
      | none => some self
      | some parent => RootOf fuel s parent

/-- The widget after a change of state under the hooks of the base class:
untouched when the state is the same, otherwise with the new state and
invalidated. -/
def withState (w : Widget) (state : State) : Widget :=
  if w.m_state = state then w else { w with m_state := state, m_invalidated := true }

/-- The trace of a change of state under the hooks of the base class: nothing
when the state is the same, otherwise the state-change hook, what its call of
`Invalidate` emits, and the state-change signal. -/
def stateChangeTrace (s : World) (self : Nat) (w : Widget) (state : State) : List Event :=
  if w.m_state = state then []
  else
    Event.HandleStateChange self w.m_state ::
      ((if w.m_invalidated then []
        else match lock s w.m_parent with
          | some parent => [Event.HandleChildInvalidate parent self]
          | none => []) ++ [Event.OnStateChange self])

/-- A root (0) with two children (1 and 2); every widget NORMAL, no focus. -/
def twoChildren : World :=
  [Widget.Widget,
   { Widget.Widget with m_parent := some 0 },
   { Widget.Widget with m_parent := some 0 }]

/-- A call of one of the two public mutators of state and focus. -/
inductive Call where
  | SetState (self : Nat) (state : State)
  | GrabFocus (self : Nat) (widget : Nat)
deriving DecidableEq

/-- The widgets a call names are among the first `n` of the store. -/
def Call.inTree (n : Nat) : Call → Prop
  | Call.SetState self _ => self < n
  | Call.GrabFocus self widget => self < n ∧ widget < n

/-- One call, under the hooks of the base class. -/
def runCall (fuel : Nat) (s : World) : Call → Option (World × List Event)
  | Call.SetState self state => SetState defaultHooks fuel s self state
  | Call.GrabFocus self widget => GrabFocus defaultHooks fuel s self widget

/-- A sequence of calls, in order, with the concatenated trace. -/
def runCalls (fuel : Nat) : List Call → World → Option (World × List Event)
  | [], s => some (s, [])
  | call :: rest, s =>
    match runCall fuel s call with
    | none => none
    | some (s1, t1) =>
      match runCalls fuel rest s1 with
      | none => none
      | some (s2, t2) => some (s2, t1 ++ t2)

/-- At most one widget is ACTIVE, and an ACTIVE widget is the one the focus
reference of `root` names. -/
def FocusInvariant (s : World) (root : Nat) : Prop :=
  (∀ (i j : Nat) (wi wj : Widget), s[i]? = some wi → s[j]? = some wj →
    wi.m_state = State.ACTIVE → wj.m_state = State.ACTIVE → i = j) ∧
  (∀ (i : Nat) (wi : Widget), s[i]? = some wi → wi.m_state = State.ACTIVE →
    ∃ wr, s[root]? = some wr ∧ wr.m_focus_widget = some i)

/-- The store is one tree under `root` (every widget climbs to `root` within
`fuel` links), the focus reference of `root` names a widget of the store if
it is set, and every ACTIVE widget is the one it names. -/
def FocusTree (fuel : Nat) (s : World) (root : Nat) : Prop :=
  (∀ i : Nat, i < s.length → RootOf fuel s i = some root) ∧
  ∃ wr, s[root]? = some wr ∧
    (∀ old, wr.m_focus_widget = some old → old < s.length) ∧
    (∀ (i : Nat) (wi : Widget), s[i]? = some wi → wi.m_state = State.ACTIVE →
      wr.m_focus_widget = some i)

/-- Whether the input event is a button release. -/
def sf.Event.isRelease : sf.Event → Bool
  | sf.Event.MouseButtonReleased _ _ _ => true
  | _ => false

/-- A visible widget with the allocation `{0, 0, 100, 100}`, as constructed
(the pointer not yet seen inside, no button down). -/
def plainWidget : Widget :=
  { Widget.Widget with m_allocation := ⟨0, 0, 100, 100⟩ }

/-- The widget `plainWidget` once the pointer is inside it. -/
def hoveredWidget : Widget :=
  { Widget.Widget with m_allocation := ⟨0, 0, 100, 100⟩, m_mouse_in := true }

/-- Two stores with the same parent links: same size, and every widget has
the same `m_parent`. -/
def SameLinks (s s' : World) : Prop :=
  s'.length = s.length ∧
    ∀ i : Nat, (s'[i]?).map Widget.m_parent = (s[i]?).map Widget.m_parent

end sfg

namespace sfg

/-! ## Store lemmas -/

theorem lt_of_getElem? {α : Type} {s : List α} {i : Nat} {a : α} (h : s[i]? = some a) :
    i < s.length :=
  (List.getElem?_eq_some.1 h).1

theorem set_of_getElem? {α : Type} : ∀ (s : List α) (i : Nat) (a : α),
    s[i]? = some a → s.set i a = s
  | [], _, _, h => by simp at h
  | x :: xs, 0, a, h => by
    simp at h
    simp [h]
  | x :: xs, i + 1, a, h => by
    simp at h
    simp [set_of_getElem? xs i a h]

theorem getElem?_set_same {α : Type} {s : List α} {i : Nat} {a b : α} (h : s[i]? = some a) :
    (s.set i b)[i]? = some b := by
  simp [lt_of_getElem? h]

theorem getElem?_set_other {α : Type} {s : List α} {i j : Nat} {b : α} (h : i ≠ j) :
    (s.set i b)[j]? = s[j]? := by
  simp [h]

theorem set_set_same {α : Type} (s : List α) (i : Nat) (a b : α) :
    (s.set i a).set i b = s.set i b := by
  simp

theorem SameLinks.refl (s : World) : SameLinks s s := ⟨rfl, fun _ => rfl⟩

theorem SameLinks.trans {s s' s'' : World} (h : SameLinks s s') (h' : SameLinks s' s'') :
    SameLinks s s'' :=
  ⟨h'.1.trans h.1, fun i => (h'.2 i).trans (h.2 i)⟩

theorem SameLinks.set {s : World} {i : Nat} {w w' : Widget} (h : s[i]? = some w)
    (hp : w'.m_parent = w.m_parent) : SameLinks s (s.set i w') := by
  refine ⟨by simp, fun j => ?_⟩
  by_cases hij : i = j
  · subst hij
    rw [getElem?_set_same h, h]
    simp [hp]
  · rw [getElem?_set_other hij]

theorem SameLinks.lock {s s' : World} (h : SameLinks s s') (p : Option Nat) :
    lock s' p = lock s p := by
  unfold sfg.lock
  rw [h.1]

theorem SameLinks.getElem? {s s' : World} (h : SameLinks s s') {i : Nat} {w : Widget}
    (hw : s[i]? = some w) : ∃ w', s'[i]? = some w' ∧ w'.m_parent = w.m_parent := by
  have := h.2 i
  rw [hw] at this
  cases hs : s'[i]? with
  | none => rw [hs] at this; simp at this
  | some w' =>
    rw [hs] at this
    exact ⟨w', rfl, by simpa using this⟩

theorem ParentChain_sameLinks {s s' : World} (h : SameLinks s s') :
    ∀ (fuel self : Nat), ParentChain fuel s' self = ParentChain fuel s self := by
  intro fuel
  induction fuel with
  | zero => intro self; rfl
  | succ n ih =>
    intro self
    unfold ParentChain
    cases hw : s[self]? with
    | none =>
      have := h.2 self
      rw [hw] at this
      cases hs : s'[self]? with
      | none => rfl
      | some w' => rw [hs] at this; simp at this
    | some w =>
      obtain ⟨w', hw', hp⟩ := h.getElem? hw
      rw [hw']
      simp only
      rw [h.lock, hp]
      cases lock s w.m_parent with
      | none => rfl
      | some p => simp only [ih p]

/-- The absolute position is defined exactly when the parent chain is
resolved by the fuel, and is then the sum of the origins along the chain. -/
theorem GetAbsolutePosition_eq_map (s : World) :
    ∀ (fuel self : Nat), GetAbsolutePosition fuel s self =
      (ParentChain fuel s self).map fun c =>
        ⟨(c.map (originLeft s)).sum, (c.map (originTop s)).sum⟩ := by
  intro fuel
  induction fuel with
  | zero => intro self; rfl
  | succ n ih =>
    intro self
    unfold GetAbsolutePosition ParentChain
    cases hw : s[self]? with
    | none => rfl
    | some w =>
      simp only
      cases lock s w.m_parent with
      | none => simp [originLeft, originTop, hw]
      | some p =>
        simp only [ih p]
        cases ParentChain n s p with
        | none => rfl
        | some c =>
          simp [originLeft, originTop, hw, add_comm]

theorem ParentChain_some_getElem? {fuel : Nat} {s : World} {self : Nat} {c : List Nat}
    (h : ParentChain fuel s self = some c) : ∃ w, s[self]? = some w := by
  cases fuel with
  | zero => simp [ParentChain] at h
  | succ n =>
    unfold ParentChain at h
    cases hw : s[self]? with
    | none => rw [hw] at h; simp at h
    | some w => exact ⟨w, rfl⟩

theorem GetAbsolutePosition_some_of_chain {fuel : Nat} {s s' : World} {self : Nat}
    {c : List Nat} (h : ParentChain fuel s self = some c) (hl : SameLinks s s') :
    ∃ p, GetAbsolutePosition fuel s' self = some p := by
  rw [GetAbsolutePosition_eq_map, ParentChain_sameLinks hl, h]
  exact ⟨_, rfl⟩

end sfg

namespace sfg

/-! ## `Invalidate`, `UpdateDrawablePosition` -/

theorem Invalidate_eq {s : World} {self : Nat} {w : Widget} (hw : s[self]? = some w) :
    Invalidate s self = some (s.set self { w with m_invalidated := true },
      if w.m_invalidated then []
      else match lock s w.m_parent with
        | some parent => [Event.HandleChildInvalidate parent self]
        | none => []) := by
  unfold Invalidate
  rw [hw]
  by_cases hi : w.m_invalidated = true
  · have he : ({ w with m_invalidated := true } : Widget) = w := by
      cases w
      simp_all
    simp [hi, he, set_of_getElem? s self w hw]
  · simp only [hi]
    cases lock s w.m_parent <;> simp

theorem UpdateDrawablePosition_inv {fuel : Nat} {s s2 : World} {self : Nat} {w : Widget}
    (hw : s[self]? = some w) (h : UpdateDrawablePosition fuel s self = some s2) :
    ∃ d, s2 = s.set self { w with m_drawable := d } ∧
      (d.isSome = w.m_drawable.isSome) := by
  unfold UpdateDrawablePosition at h
  rw [hw] at h
  dsimp only at h
  cases hd : w.m_drawable with
  | none =>
    rw [hd] at h
    simp only [Option.some.injEq] at h
    refine ⟨none, ?_, rfl⟩
    have he : ({ w with m_drawable := none } : Widget) = w := by
      cases w
      simp_all
    rw [he, set_of_getElem? s self w hw, h]
  | some d =>
    rw [hd] at h
    simp only at h
    cases hp : GetAbsolutePosition fuel s self with
    | none => rw [hp] at h; simp at h
    | some p =>
      rw [hp] at h
      simp only [Option.some.injEq] at h
      exact ⟨some (d.SetPosition p), h.symm, rfl⟩

theorem UpdateDrawablePosition_some {fuel : Nat} {s0 s : World} {self : Nat} {c : List Nat}
    (hc : ParentChain fuel s0 self = some c) (hl : SameLinks s0 s) :
    ∃ s2, UpdateDrawablePosition fuel s self = some s2 := by
  obtain ⟨w0, hw0⟩ := ParentChain_some_getElem? hc
  obtain ⟨w, hw, _⟩ := hl.getElem? hw0
  obtain ⟨p, hp⟩ := GetAbsolutePosition_some_of_chain hc hl
  unfold UpdateDrawablePosition
  rw [hw, hp]
  dsimp only
  cases w.m_drawable with
  | none => exact ⟨_, rfl⟩
  | some d => exact ⟨_, rfl⟩

/-! ## `SetAllocation` -/

/-- The pixel-aligned rectangle `SetAllocation` stores. -/
theorem FloatRect.eq_iff (a b : FloatRect) :
    (a.Top = b.Top ∧ a.Left = b.Left ∧ a.Width = b.Width ∧ a.Height = b.Height) ↔ a = b := by
  cases a
  cases b
  simp only [FloatRect.mk.injEq]
  tauto

theorem SetAllocation_unchanged {fuel : Nat} {s : World} {self : Nat} {w : Widget}
    {rect : FloatRect} (hw : s[self]? = some w)
    (ha : w.m_allocation =
      ⟨pixel rect.Left, pixel rect.Top, pixel rect.Width, pixel rect.Height⟩) :
    SetAllocation fuel s self rect = some (s, []) := by
  unfold SetAllocation
  rw [hw]
  simp only
  rw [if_pos ((FloatRect.eq_iff _ _).2 ha), ← ha]
  have he : ({ w with m_allocation := w.m_allocation } : Widget) = w := by
    cases w
    rfl
  rw [he, set_of_getElem? s self w hw]

theorem SetAllocation_inv {fuel : Nat} {s s1 : World} {self : Nat} {w : Widget}
    {rect : FloatRect} {t1 : List Event} (hw : s[self]? = some w)
    (h : SetAllocation fuel s self rect = some (s1, t1)) :
    (w.m_allocation =
        ⟨pixel rect.Left, pixel rect.Top, pixel rect.Width, pixel rect.Height⟩ ∧
      s1 = s ∧ t1 = []) ∨
    (w.m_allocation ≠
        ⟨pixel rect.Left, pixel rect.Top, pixel rect.Width, pixel rect.Height⟩ ∧
      ∃ d, d.isSome = w.m_drawable.isSome ∧
        s1 = s.set self { w with
          m_allocation :=
            ⟨pixel rect.Left, pixel rect.Top, pixel rect.Width, pixel rect.Height⟩
          m_drawable := d
          m_invalidated := true } ∧
        t1 = [Event.HandleAbsolutePositionChange self,
              Event.HandleAllocationChange self w.m_allocation,
              Event.OnSizeAllocate self] ++
             (if w.m_invalidated then []
              else match lock s w.m_parent with
                | some parent => [Event.HandleChildInvalidate parent self]
                | none => [])) := by
  by_cases ha : w.m_allocation =
      ⟨pixel rect.Left, pixel rect.Top, pixel rect.Width, pixel rect.Height⟩
  · left
    rw [SetAllocation_unchanged hw ha] at h
    simp only [Option.some.injEq, Prod.mk.injEq] at h
    exact ⟨ha, h.1.symm, h.2.symm⟩
  · right
    refine ⟨ha, ?_⟩
    unfold SetAllocation at h
    rw [hw] at h
    simp only at h
    rw [if_neg (fun hc => ha ((FloatRect.eq_iff _ _).1 hc))] at h
    cases hu : UpdateDrawablePosition fuel (s.set self { w with
        m_allocation :=
          ⟨pixel rect.Left, pixel rect.Top, pixel rect.Width, pixel rect.Height⟩ }) self with
    | none => rw [hu] at h; simp at h
    | some s2 =>
      rw [hu] at h
      simp only at h
      obtain ⟨d, hs2, hd⟩ := UpdateDrawablePosition_inv (getElem?_set_same hw) hu
      have hw2 : s2[self]? = some ({ w with
          m_allocation :=
            ⟨pixel rect.Left, pixel rect.Top, pixel rect.Width, pixel rect.Height⟩
          m_drawable := d } : Widget) := by
        rw [hs2, set_set_same]
        exact getElem?_set_same hw
      rw [Invalidate_eq hw2] at h
      simp only [Option.some.injEq, Prod.mk.injEq] at h
      refine ⟨d, hd, ?_, ?_⟩
      · rw [← h.1, hs2, set_set_same, set_set_same]
      · rw [← h.2]
        have hlk : lock s2 w.m_parent = lock s w.m_parent := by
          unfold lock
          rw [hs2]
          simp
        simp only [hlk]

theorem SetAllocation_some {fuel : Nat} {s0 s : World} {self : Nat} {c : List Nat}
    (hc : ParentChain fuel s0 self = some c) (hl : SameLinks s0 s) (rect : FloatRect) :
    ∃ r, SetAllocation fuel s self rect = some r := by
  obtain ⟨w0, hw0⟩ := ParentChain_some_getElem? hc
  obtain ⟨w, hw, hp⟩ := hl.getElem? hw0
  unfold SetAllocation
  rw [hw]
  simp only
  split
  · exact ⟨_, rfl⟩
  · have hl1 : SameLinks s0 (s.set self { w with
        m_allocation :=
          ⟨pixel rect.Left, pixel rect.Top, pixel rect.Width, pixel rect.Height⟩ }) :=
      hl.trans (SameLinks.set hw rfl)
    obtain ⟨s2, hs2⟩ := UpdateDrawablePosition_some hc hl1
    rw [hs2]
    simp only
    obtain ⟨d, hd, _⟩ := UpdateDrawablePosition_inv (getElem?_set_same hw) hs2
    have hw2 : s2[self]? = some ({ w with
        m_allocation :=
          ⟨pixel rect.Left, pixel rect.Top, pixel rect.Width, pixel rect.Height⟩
        m_drawable := d } : Widget) := by
      rw [hd, set_set_same]
      exact getElem?_set_same hw
    rw [Invalidate_eq hw2]
    exact ⟨_, rfl⟩

end sfg

namespace sfg

theorem SetAllocation_getElem? {fuel : Nat} {s : World} {self : Nat} {rect : FloatRect}
    {r : World × List Event} (h : SetAllocation fuel s self rect = some r) :
    ∃ w, s[self]? = some w := by
  unfold SetAllocation at h
  cases hw : s[self]? with
  | none => rw [hw] at h; simp at h
  | some w => exact ⟨w, rfl⟩

/-- What `SetAllocation` leaves in the store: the widget with the aligned
rectangle as its allocation. -/
theorem SetAllocation_result {fuel : Nat} {s s1 : World} {self : Nat} {w : Widget}
    {rect : FloatRect} {t1 : List Event} (hw : s[self]? = some w)
    (h : SetAllocation fuel s self rect = some (s1, t1)) :
    ∃ w1, s1[self]? = some w1 ∧
      w1.m_allocation =
        ⟨pixel rect.Left, pixel rect.Top, pixel rect.Width, pixel rect.Height⟩ ∧
      (t1 ≠ [] → w1.m_invalidated = true) ∧
      SameLinks s s1 := by
  rcases SetAllocation_inv hw h with ⟨ha, hs, ht⟩ | ⟨_, d, _, hs, ht⟩
  · subst hs
    exact ⟨w, hw, ha, fun hne => absurd ht hne, SameLinks.refl _⟩
  · subst hs
    exact ⟨_, getElem?_set_same hw, rfl, fun _ => rfl, SameLinks.set hw rfl⟩

theorem pixel_10_4 : pixel 10.4 = 10 := by
  norm_num [pixel, Int.floor_eq_iff]

theorem pixel_10_6 : pixel 10.6 = 11 := by
  norm_num [pixel, Int.floor_eq_iff]

theorem pixel_50 : pixel 50 = 50 := by
  norm_num [pixel, Int.floor_eq_iff]

theorem pixel_0 : pixel 0 = 0 := by
  norm_num [pixel, Int.floor_eq_iff]

/-- The scenario of the spec: a fresh widget given `{10.4, 10.6, 50, 50}`. -/
theorem SetAllocation_fresh :
    SetAllocation 1 [Widget.Widget] 0 ⟨10.4, 10.6, 50, 50⟩ =
      some ([{ Widget.Widget with m_allocation := ⟨10, 11, 50, 50⟩, m_invalidated := true }],
        [Event.HandleAbsolutePositionChange 0,
         Event.HandleAllocationChange 0 ⟨0, 0, 0, 0⟩,
         Event.OnSizeAllocate 0]) := by
  simp [SetAllocation, Widget.Widget, UpdateDrawablePosition, Invalidate, lock,
    pixel_10_4, pixel_10_6, pixel_50]

/-! ## C1 – C3, C5 -/

/-- C3: when the aligned rectangle differs from the current allocation,
`SetAllocation` returns whenever the parent chain is finite, and whenever it
returns its trace is, in this order, the absolute-position-change hook, the
allocation-change hook carrying the old rectangle, the size-allocate signal
and then what `Invalidate` emits (the notification of the parent, if there is
one and the widget was valid before); afterwards `invalidated == true`. -/
theorem SetAllocation_changed_sequence (fuel : Nat) (s : World) (self : Nat)
    (rect : FloatRect) (w : Widget) (hw : s[self]? = some w)
    (hne : w.m_allocation ≠
      ⟨pixel rect.Left, pixel rect.Top, pixel rect.Width, pixel rect.Height⟩) :
    (∀ c, ParentChain fuel s self = some c →
      ∃ r, SetAllocation fuel s self rect = some r) ∧
    (∀ s1 t1, SetAllocation fuel s self rect = some (s1, t1) →
      t1 = [Event.HandleAbsolutePositionChange self,
            Event.HandleAllocationChange self w.m_allocation,
            Event.OnSizeAllocate self] ++
           (if w.m_invalidated then []
            else match lock s w.m_parent with
              | some parent => [Event.HandleChildInvalidate parent self]
              | none => []) ∧
      ∃ w1, s1[self]? = some w1 ∧ w1.m_invalidated = true) := by
  refine ⟨fun c hc => SetAllocation_some hc (SameLinks.refl s) rect, ?_⟩
  intro s1 t1 h
  rcases SetAllocation_inv hw h with ⟨ha, _, _⟩ | ⟨_, d, _, hs, ht⟩
  · exact absurd ha hne
  · subst hs
    exact ⟨ht, _, getElem?_set_same hw, rfl⟩

end sfg

namespace sfg

theorem SetAllocation_changed_sequence_witness :
    ([Widget.Widget] : World)[0]? = some Widget.Widget ∧
      Widget.Widget.m_allocation ≠
        ⟨pixel 10.4, pixel 10.6, pixel 50, pixel 50⟩ ∧
      ∃ s1 t1, SetAllocation 1 [Widget.Widget] 0 ⟨10.4, 10.6, 50, 50⟩ = some (s1, t1) ∧
        t1 = [Event.HandleAbsolutePositionChange 0,
              Event.HandleAllocationChange 0 Widget.Widget.m_allocation,
              Event.OnSizeAllocate 0] ++
             (if Widget.Widget.m_invalidated then []
              else match lock [Widget.Widget] Widget.Widget.m_parent with
                | some parent => [Event.HandleChildInvalidate parent 0]
                | none => []) ∧
        ∃ w1, s1[0]? = some w1 ∧ w1.m_invalidated = true :=
  have hne : Widget.Widget.m_allocation ≠ ⟨pixel 10.4, pixel 10.6, pixel 50, pixel 50⟩ := by
    simp [Widget.Widget, pixel_10_4]
  ⟨rfl, hne, _, _, SetAllocation_fresh,
    (SetAllocation_changed_sequence 1 [Widget.Widget] 0 ⟨10.4, 10.6, 50, 50⟩ Widget.Widget
      rfl hne).2 _ _ SetAllocation_fresh⟩

theorem threeLevels_chain : ParentChain 3 threeLevels 2 = some [2, 1, 0] := by
  decide

end sfg

namespace sfg

/-! ## `SetPosition` -/

theorem SetPosition_getElem? {fuel : Nat} {s : World} {self : Nat} {position : Vector2f}
    {r : World × List Event} (h : SetPosition fuel s self position = some r) :
    ∃ w, s[self]? = some w := by
  unfold SetPosition at h
  cases hw : s[self]? with
  | none => rw [hw] at h; simp at h
  | some w => exact ⟨w, rfl⟩

theorem SetPosition_unchanged {fuel : Nat} {s : World} {self : Nat} {w : Widget}
    {position : Vector2f} (hw : s[self]? = some w)
    (hx : w.m_allocation.Left = pixel position.x) (hy : w.m_allocation.Top = pixel position.y) :
    SetPosition fuel s self position = some (s, []) := by
  unfold SetPosition
  rw [hw]
  dsimp only
  rw [if_pos ⟨hy, hx⟩, ← hx, ← hy]
  have he : ({ w with m_allocation := { w.m_allocation with
      Left := w.m_allocation.Left, Top := w.m_allocation.Top } } : Widget) = w := by
    cases w
    rfl
  rw [he, set_of_getElem? s self w hw]

theorem SetPosition_inv {fuel : Nat} {s s1 : World} {self : Nat} {w : Widget}
    {position : Vector2f} {t1 : List Event} (hw : s[self]? = some w)
    (h : SetPosition fuel s self position = some (s1, t1)) :
    ((w.m_allocation.Left = pixel position.x ∧ w.m_allocation.Top = pixel position.y) ∧
      s1 = s ∧ t1 = []) ∨
    (¬ (w.m_allocation.Left = pixel position.x ∧ w.m_allocation.Top = pixel position.y) ∧
      ∃ d, d.isSome = w.m_drawable.isSome ∧
        s1 = s.set self { w with
          m_allocation := { w.m_allocation with
            Left := pixel position.x, Top := pixel position.y }
          m_drawable := d } ∧
        t1 = [Event.HandleAbsolutePositionChange self,
              Event.HandleAllocationChange self w.m_allocation,
              Event.OnSizeAllocate self]) := by
  by_cases ha : w.m_allocation.Left = pixel position.x ∧ w.m_allocation.Top = pixel position.y
  · left
    rw [SetPosition_unchanged hw ha.1 ha.2] at h
    simp only [Option.some.injEq, Prod.mk.injEq] at h
    exact ⟨ha, h.1.symm, h.2.symm⟩
  · right
    refine ⟨ha, ?_⟩
    unfold SetPosition at h
    rw [hw] at h
    dsimp only at h
    rw [if_neg (fun hc => ha ⟨hc.2, hc.1⟩)] at h
    cases hu : UpdateDrawablePosition fuel (s.set self { w with
        m_allocation := { w.m_allocation with
          Left := pixel position.x, Top := pixel position.y } }) self with
    | none => rw [hu] at h; simp at h
    | some s2 =>
      rw [hu] at h
      dsimp only at h
      obtain ⟨d, hs2, hd⟩ := UpdateDrawablePosition_inv (getElem?_set_same hw) hu
      have hw2 : s2[self]? = some ({ w with
          m_allocation := { w.m_allocation with
            Left := pixel position.x, Top := pixel position.y }
          m_drawable := d } : Widget) := by
        rw [hs2, set_set_same]
        exact getElem?_set_same hw
      cases hu2 : UpdateDrawablePosition fuel s2 self with
      | none => rw [hu2] at h; simp at h
      | some s3 =>
        rw [hu2] at h
        simp only [Option.some.injEq, Prod.mk.injEq] at h
        obtain ⟨d2, hs3, hd2⟩ := UpdateDrawablePosition_inv hw2 hu2
        refine ⟨d2, hd2.trans hd, ?_, h.2.symm⟩
        rw [← h.1, hs3, hs2, set_set_same, set_set_same]

end sfg

namespace sfg

/-! ## Rounding to the pixel grid -/

theorem pixel_pixel (v : ℚ) : pixel (pixel v) = pixel v := by
  unfold pixel
  norm_num [Int.floor_eq_iff]

/-- The constructor leaves a pixel-aligned allocation. -/
theorem Widget_pixelAligned : PixelAligned Widget.Widget.m_allocation := by
  simp [PixelAligned, Widget.Widget, pixel_0]

/-- The allocation is pixel-aligned after every `SetAllocation`. -/
theorem SetAllocation_pixelAligned {fuel : Nat} {s s1 : World} {self : Nat}
    {rect : FloatRect} {t1 : List Event} {w1 : Widget}
    (h : SetAllocation fuel s self rect = some (s1, t1)) (hw1 : s1[self]? = some w1) :
    PixelAligned w1.m_allocation := by
  obtain ⟨w, hw⟩ := SetAllocation_getElem? h
  obtain ⟨w1', hw1', ha, _, _⟩ := SetAllocation_result hw h
  rw [hw1] at hw1'
  cases hw1'
  rw [ha]
  exact ⟨pixel_pixel _, pixel_pixel _, pixel_pixel _, pixel_pixel _⟩

/-- A pixel-aligned allocation stays pixel-aligned through `SetPosition`. -/
theorem SetPosition_pixelAligned {fuel : Nat} {s s1 : World} {self : Nat}
    {position : Vector2f} {t1 : List Event} {w w1 : Widget} (hw : s[self]? = some w)
    (hal : PixelAligned w.m_allocation)
    (h : SetPosition fuel s self position = some (s1, t1)) (hw1 : s1[self]? = some w1) :
    PixelAligned w1.m_allocation := by
  rcases SetPosition_inv hw h with ⟨_, hs, _⟩ | ⟨_, d, _, hs, _⟩
  · subst hs
    rw [hw] at hw1
    cases hw1
    exact hal
  · subst hs
    rw [getElem?_set_same hw] at hw1
    cases hw1
    exact ⟨pixel_pixel _, pixel_pixel _, hal.2.2.1, hal.2.2.2⟩

/-! ## `RequestResize` -/

theorem SetAllocation_buildCount {fuel : Nat} {s s1 : World} {self : Nat} {rect : FloatRect}
    {t1 : List Event} (h : SetAllocation fuel s self rect = some (s1, t1)) :
    buildCount t1 = 0 := by
  obtain ⟨w, hw⟩ := SetAllocation_getElem? h
  rcases SetAllocation_inv hw h with ⟨_, _, ht⟩ | ⟨_, d, _, _, ht⟩
  · subst ht
    rfl
  · subst ht
    unfold buildCount
    by_cases hi : w.m_invalidated = true
    · simp [hi]
    · cases lock s w.m_parent <;> simp [hi]

end sfg

namespace sfg

theorem ParentChain_succ_inv {n : Nat} {s : World} {self : Nat} {c : List Nat} {w : Widget}
    (hw : s[self]? = some w) (hc : ParentChain (n + 1) s self = some c) :
    (lock s w.m_parent = none) ∨
      ∃ parent c', lock s w.m_parent = some parent ∧ ParentChain n s parent = some c' := by
  unfold ParentChain at hc
  rw [hw] at hc
  dsimp only at hc
  cases hl : lock s w.m_parent with
  | none => exact Or.inl rfl
  | some parent =>
    right
    rw [hl] at hc
    dsimp only at hc
    cases hp : ParentChain n s parent with
    | none => rw [hp] at hc; simp at hc
    | some c' => exact ⟨parent, c', rfl, hp⟩

/-- Termination: `RequestResize` returns on every widget whose parent chain is
finite. -/
theorem RequestResize_some (cr : Nat → Vector2f) :
    ∀ (fuel : Nat) (s0 s : World) (self : Nat) (c : List Nat),
      ParentChain fuel s0 self = some c → SameLinks s0 s →
      ∃ r, RequestResize cr fuel s self = some r := by
  intro fuel
  induction fuel with
  | zero =>
    intro s0 s self c hc
    simp [ParentChain] at hc
  | succ n ih =>
    intro s0 s self c hc hl
    obtain ⟨w0, hw0⟩ := ParentChain_some_getElem? hc
    obtain ⟨w, hw, hp⟩ := hl.getElem? hw0
    have hl1 : SameLinks s0 (s.set self { w with
        m_requisition := combineRequisition (cr self) w.m_custom_requisition }) :=
      hl.trans (SameLinks.set hw rfl)
    have hlk : lock s w.m_parent = lock s0 w0.m_parent := by
      rw [hl.lock, hp]
    unfold RequestResize
    rw [hw]
    dsimp only
    rw [hlk]
    rcases ParentChain_succ_inv hw0 hc with hroot | ⟨parent, c', hpar, hc'⟩
    · rw [hroot]
      dsimp only
      obtain ⟨r, hr⟩ := SetAllocation_some hc hl1
        ⟨w.m_allocation.Left, w.m_allocation.Top,
         max w.m_allocation.Width (combineRequisition (cr self) w.m_custom_requisition).x,
         max w.m_allocation.Height (combineRequisition (cr self) w.m_custom_requisition).y⟩
      rw [hr]
      exact ⟨_, rfl⟩
    · rw [hpar]
      dsimp only
      obtain ⟨r, hr⟩ := ih s0 _ parent c' hc' hl1
      rw [hr]
      exact ⟨_, rfl⟩

/-- No build: `RequestResize` never invokes the build hook. -/
theorem RequestResize_buildCount (cr : Nat → Vector2f) :
    ∀ (fuel : Nat) (s s1 : World) (self : Nat) (t : List Event),
      RequestResize cr fuel s self = some (s1, t) → buildCount t = 0 := by
  intro fuel
  induction fuel with
  | zero =>
    intro s s1 self t h
    simp [RequestResize] at h
  | succ n ih =>
    intro s s1 self t h
    unfold RequestResize at h
    cases hw : s[self]? with
    | none => rw [hw] at h; simp at h
    | some w =>
      rw [hw] at h
      dsimp only at h
      cases hl : lock s w.m_parent with
      | some parent =>
        rw [hl] at h
        dsimp only at h
        cases hr : RequestResize cr n (s.set self { w with
            m_requisition := combineRequisition (cr self) w.m_custom_requisition }) parent with
        | none => rw [hr] at h; simp at h
        | some r =>
          obtain ⟨s2, t2⟩ := r
          rw [hr] at h
          simp only [Option.some.injEq, Prod.mk.injEq] at h
          have := ih _ _ _ _ hr
          rw [← h.2]
          unfold buildCount at this ⊢
          simpa using this
      | none =>
        rw [hl] at h
        dsimp only at h
        cases hr : SetAllocation (n + 1) (s.set self { w with
            m_requisition := combineRequisition (cr self) w.m_custom_requisition }) self
            ⟨w.m_allocation.Left, w.m_allocation.Top,
             max w.m_allocation.Width
               (combineRequisition (cr self) w.m_custom_requisition).x,
             max w.m_allocation.Height
               (combineRequisition (cr self) w.m_custom_requisition).y⟩ with
        | none => rw [hr] at h; simp at h
        | some r =>
          obtain ⟨s2, t2⟩ := r
          rw [hr] at h
          simp only [Option.some.injEq, Prod.mk.injEq] at h
          have := SetAllocation_buildCount hr
          rw [← h.2]
          unfold buildCount at this ⊢
          simpa using this

/-- At a root, `RequestResize` is the size-request signal followed by
`SetAllocation` of the resolved rectangle. -/
theorem RequestResize_root (cr : Nat → Vector2f) (fuel : Nat) {s : World} {self : Nat}
    {w : Widget} (hw : s[self]? = some w) (hroot : lock s w.m_parent = none) :
    RequestResize cr (fuel + 1) s self =
      match SetAllocation (fuel + 1) (s.set self { w with
          m_requisition := combineRequisition (cr self) w.m_custom_requisition }) self
          ⟨w.m_allocation.Left, w.m_allocation.Top,
           max w.m_allocation.Width (combineRequisition (cr self) w.m_custom_requisition).x,
           max w.m_allocation.Height
             (combineRequisition (cr self) w.m_custom_requisition).y⟩ with
      | none => none
      | some (s2, t) => some (s2, Event.OnSizeRequest self :: t) := by
  conv_lhs => unfold RequestResize
  rw [hw]
  dsimp only
  rw [hroot]

end sfg

namespace sfg

/-! ## C6, C7 -/

end sfg

namespace sfg

end sfg

namespace sfg

/-! ## `Invalidate` repeated, `Expose` -/

theorem Invalidate_invalidated {s : World} {self : Nat} {w : Widget} (hw : s[self]? = some w)
    (hi : w.m_invalidated = true) : Invalidate s self = some (s, []) := by
  unfold Invalidate
  rw [hw]
  simp [hi]

theorem Invalidate_buildCount {s s1 : World} {self : Nat} {t : List Event}
    (h : Invalidate s self = some (s1, t)) : buildCount t = 0 := by
  unfold Invalidate at h
  cases hw : s[self]? with
  | none => rw [hw] at h; simp at h
  | some w =>
    rw [hw] at h
    dsimp only at h
    by_cases hi : w.m_invalidated = true
    · simp only [hi, if_true, Option.some.injEq, Prod.mk.injEq] at h
      rw [← h.2]
      rfl
    · simp only [hi] at h
      cases hl : lock s w.m_parent with
      | none =>
        rw [hl] at h
        simp only [Bool.false_eq_true, if_false, Option.some.injEq, Prod.mk.injEq] at h
        rw [← h.2]
        rfl
      | some p =>
        rw [hl] at h
        simp only [Bool.false_eq_true, if_false, Option.some.injEq, Prod.mk.injEq] at h
        rw [← h.2]
        rfl

/-- After one or more calls of `Invalidate` the widget is invalidated, nothing
else has changed, and the build hook has not run. -/
theorem InvalidateTimes_succ (n : Nat) {s : World} {self : Nat} {w : Widget}
    (hw : s[self]? = some w) :
    ∃ t, InvalidateTimes (n + 1) s self =
        some (s.set self { w with m_invalidated := true }, t) ∧ buildCount t = 0 := by
  have hw1 : (s.set self { w with m_invalidated := true })[self]? =
      some ({ w with m_invalidated := true } : Widget) := getElem?_set_same hw
  have hrest : ∀ m : Nat, InvalidateTimes m (s.set self { w with m_invalidated := true }) self =
      some (s.set self { w with m_invalidated := true }, []) := by
    intro m
    induction m with
    | zero => rfl
    | succ k ih =>
      unfold InvalidateTimes
      rw [Invalidate_invalidated hw1 rfl]
      dsimp only
      rw [ih]
      rfl
  unfold InvalidateTimes
  have hb := Invalidate_buildCount (Invalidate_eq hw)
  rw [Invalidate_eq hw]
  dsimp only
  rw [hrest n]
  dsimp only
  exact ⟨_, rfl, by simpa using hb⟩

theorem ExposeRebuild_valid (impl : Nat → Option RenderQueue) (fuel : Nat) {s : World}
    {self : Nat} {w : Widget} (hw : s[self]? = some w) (hi : w.m_invalidated = false) :
    ExposeRebuild impl fuel s self = some (s, []) := by
  unfold ExposeRebuild
  rw [hw]
  simp [hi]

theorem ExposeRebuild_inv (impl : Nat → Option RenderQueue) {fuel : Nat} {s s1 : World}
    {self : Nat} {w : Widget} {t : List Event} (hw : s[self]? = some w)
    (hi : w.m_invalidated = true) (h : ExposeRebuild impl fuel s self = some (s1, t)) :
    ∃ d, s1 = s.set self { w with m_invalidated := false, m_drawable := d } ∧
      t = [Event.InvalidateImpl self] := by
  unfold ExposeRebuild at h
  rw [hw] at h
  dsimp only at h
  rw [if_pos hi] at h
  cases hd : impl self with
  | none =>
    rw [hd] at h
    simp only [Option.some.injEq, Prod.mk.injEq] at h
    exact ⟨none, h.1.symm, h.2.symm⟩
  | some d =>
    rw [hd] at h
    dsimp only at h
    cases hp : GetAbsolutePosition fuel (s.set self { w with
        m_invalidated := false, m_drawable := some d.Compile }) self with
    | none => rw [hp] at h; simp at h
    | some p =>
      rw [hp] at h
      simp only [Option.some.injEq, Prod.mk.injEq] at h
      refine ⟨some (d.Compile.SetPosition p), ?_, h.2.symm⟩
      rw [← h.1, set_set_same]

theorem ExposeRebuild_some (impl : Nat → Option RenderQueue) {fuel : Nat} {s : World}
    {self : Nat} {c : List Nat} (hc : ParentChain fuel s self = some c) :
    ∃ r, ExposeRebuild impl fuel s self = some r := by
  obtain ⟨w, hw⟩ := ParentChain_some_getElem? hc
  unfold ExposeRebuild
  rw [hw]
  dsimp only
  split
  · cases impl self with
    | none => exact ⟨_, rfl⟩
    | some d =>
      dsimp only
      have hl1 : SameLinks s (s.set self { w with
          m_invalidated := false, m_drawable := some d.Compile }) :=
        SameLinks.set hw rfl
      obtain ⟨p, hp⟩ := GetAbsolutePosition_some_of_chain hc hl1
      rw [hp]
      exact ⟨_, rfl⟩
  · exact ⟨_, rfl⟩

/-- What the rebuild half of `Expose` leaves: the widget with a cleared flag,
its visibility untouched, and a trace with one build event if the widget was
invalidated and none otherwise. -/
theorem ExposeRebuild_result (impl : Nat → Option RenderQueue) {fuel : Nat} {s s1 : World}
    {self : Nat} {w : Widget} {t : List Event} (hw : s[self]? = some w)
    (h : ExposeRebuild impl fuel s self = some (s1, t)) :
    ∃ w1, s1[self]? = some w1 ∧ w1.m_invalidated = false ∧ w1.m_visible = w.m_visible ∧
      (w.m_invalidated = false → s1 = s ∧ w1 = w) ∧
      t = (if w.m_invalidated then [Event.InvalidateImpl self] else []) ∧
      SameLinks s s1 := by
  by_cases hi : w.m_invalidated = true
  · obtain ⟨d, hs, ht⟩ := ExposeRebuild_inv impl hw hi h
    subst hs
    refine ⟨_, getElem?_set_same hw, rfl, rfl, fun hf => ?_, ?_, SameLinks.set hw rfl⟩
    · rw [hi] at hf
      cases hf
    · simp [hi, ht]
  · have hf : w.m_invalidated = false := by
      cases hb : w.m_invalidated with
      | true => exact absurd hb hi
      | false => rfl
    rw [ExposeRebuild_valid impl fuel hw hf] at h
    simp only [Option.some.injEq, Prod.mk.injEq] at h
    refine ⟨w, by rw [← h.1]; exact hw, hf, rfl, fun _ => ⟨h.1.symm, rfl⟩, ?_, ?_⟩
    · simp [hf, ← h.2]
    · rw [← h.1]
      exact SameLinks.refl s

theorem Expose_inv (impl : Nat → Option RenderQueue) {fuel : Nat} {s s1 : World}
    {self : Nat} {t : List Event} (h : Expose impl fuel s self = some (s1, t)) :
    ∃ t0 w1, ExposeRebuild impl fuel s self = some (s1, t0) ∧ s1[self]? = some w1 ∧
      t = t0 ++ (if w1.m_visible then
          (match w1.m_drawable with
            | some d => [Event.Draw self d]
            | none => []) ++ [Event.HandleExpose self]
        else []) := by
  unfold Expose at h
  cases hr : ExposeRebuild impl fuel s self with
  | none => rw [hr] at h; simp at h
  | some r =>
    obtain ⟨s2, t0⟩ := r
    rw [hr] at h
    dsimp only at h
    cases hw1 : s2[self]? with
    | none => rw [hw1] at h; simp at h
    | some w1 =>
      rw [hw1] at h
      dsimp only at h
      by_cases hv : w1.m_visible = true
      · rw [if_pos hv] at h
        cases hd : w1.m_drawable with
        | none =>
          rw [hd] at h
          simp only [Option.some.injEq, Prod.mk.injEq] at h
          refine ⟨t0, w1, ?_, ?_, ?_⟩
          · rw [← h.1]
          · rw [← h.1]; exact hw1
          · simp [hv, hd, ← h.2]
        | some d =>
          rw [hd] at h
          simp only [Option.some.injEq, Prod.mk.injEq] at h
          refine ⟨t0, w1, ?_, ?_, ?_⟩
          · rw [← h.1]
          · rw [← h.1]; exact hw1
          · simp [hv, hd, ← h.2]
      · rw [if_neg hv] at h
        simp only [Option.some.injEq, Prod.mk.injEq] at h
        refine ⟨t0, w1, ?_, ?_, ?_⟩
        · rw [← h.1]
        · rw [← h.1]; exact hw1
        · simp [hv, ← h.2]

theorem Expose_some (impl : Nat → Option RenderQueue) {fuel : Nat} {s : World}
    {self : Nat} {c : List Nat} (hc : ParentChain fuel s self = some c) :
    ∃ r, Expose impl fuel s self = some r := by
  obtain ⟨w, hw⟩ := ParentChain_some_getElem? hc
  obtain ⟨⟨s1, t0⟩, hr⟩ := ExposeRebuild_some impl hc
  obtain ⟨w1, hw1, _⟩ := ExposeRebuild_result impl hw hr
  unfold Expose
  rw [hr]
  dsimp only
  rw [hw1]
  dsimp only
  split
  · cases w1.m_drawable with
    | none => exact ⟨_, rfl⟩
    | some d => exact ⟨_, rfl⟩
  · exact ⟨_, rfl⟩

end sfg

namespace sfg

/-! ## C8 – C10 -/

/-- C8: `Invalidate` is idempotent: it always returns; a second `Invalidate`
right after it changes nothing and emits nothing, so two calls in a row yield
the same store and the same notifications as one; on an already-invalidated
widget it changes nothing and does not notify the parent; on a valid widget
it sets the flag (and nothing else), and when the widget has a parent the
trace is exactly one notification of that parent for this child. -/
theorem Invalidate_idempotent (s : World) (self : Nat) (w : Widget)
    (hw : s[self]? = some w) :
    ∃ s1 t1, Invalidate s self = some (s1, t1) ∧
      Invalidate s1 self = some (s1, []) ∧
      InvalidateTimes 2 s self = InvalidateTimes 1 s self ∧
      InvalidateTimes 1 s self = some (s1, t1) ∧
      (w.m_invalidated = true → s1 = s ∧ t1 = []) ∧
      (w.m_invalidated = false →
        s1 = s.set self { w with m_invalidated := true } ∧
        (∀ parent, lock s w.m_parent = some parent →
          t1 = [Event.HandleChildInvalidate parent self]) ∧
        (lock s w.m_parent = none → t1 = [])) := by
  have hw1 : (s.set self { w with m_invalidated := true })[self]? =
      some ({ w with m_invalidated := true } : Widget) := getElem?_set_same hw
  have h2 := Invalidate_invalidated hw1 rfl
  refine ⟨_, _, Invalidate_eq hw, h2, ?_, ?_, ?_, ?_⟩
  · simp [InvalidateTimes, Invalidate_eq hw, h2]
  · simp [InvalidateTimes, Invalidate_eq hw]
  · intro hi
    have he : ({ w with m_invalidated := true } : Widget) = w := by
      cases w
      simp_all
    rw [he, set_of_getElem? s self w hw]
    simp [hi]
  · intro hi
    refine ⟨rfl, ?_, ?_⟩
    · intro parent hp
      simp [hi, hp]
    · intro hp
      simp [hi, hp]

theorem Invalidate_idempotent_witness :
    ∃ s1 t1, Invalidate validChild 1 = some (s1, t1) ∧
      Invalidate s1 1 = some (s1, []) ∧
      InvalidateTimes 2 validChild 1 = InvalidateTimes 1 validChild 1 ∧
      InvalidateTimes 1 validChild 1 = some (s1, t1) ∧
      (({ Widget.Widget with m_invalidated := false, m_parent := some 0 } :
          Widget).m_invalidated = true → s1 = validChild ∧ t1 = []) ∧
      (({ Widget.Widget with m_invalidated := false, m_parent := some 0 } :
          Widget).m_invalidated = false →
        s1 = validChild.set 1
          { ({ Widget.Widget with m_invalidated := false, m_parent := some 0 } :
              Widget) with m_invalidated := true } ∧
        (∀ parent, lock validChild
            ({ Widget.Widget with m_invalidated := false, m_parent := some 0 } :
              Widget).m_parent = some parent →
          t1 = [Event.HandleChildInvalidate parent 1]) ∧
        (lock validChild
            ({ Widget.Widget with m_invalidated := false, m_parent := some 0 } :
              Widget).m_parent = none → t1 = [])) :=
  Invalidate_idempotent validChild 1
    { Widget.Widget with m_invalidated := false, m_parent := some 0 } rfl

/-- C9: for every widget with a finite parent chain and every `N >= 1`
(`N = n + 1`), `N` calls of `Invalidate` followed by one `Expose` all return,
invoke the build hook `InvalidateImpl` exactly once in total and leave
`invalidated == false`; a further `Expose` returns and invokes the build hook
zero times. `Invalidate`, `SetAllocation`, `SetPosition` and `RequestResize`
never invoke the build hook. -/
theorem Expose_builds_once (impl : Nat → Option RenderQueue) (fuel : Nat) (s : World)
    (self : Nat) (n : Nat) (c : List Nat) (hc : ParentChain fuel s self = some c) :
    (∃ sN tN s1 t1 w1 s2 t2,
      InvalidateTimes (n + 1) s self = some (sN, tN) ∧
      Expose impl fuel sN self = some (s1, t1) ∧
      buildCount (tN ++ t1) = 1 ∧
      s1[self]? = some w1 ∧ w1.m_invalidated = false ∧
      Expose impl fuel s1 self = some (s2, t2) ∧
      buildCount t2 = 0) ∧
    (∀ s' i s1 t, Invalidate s' i = some (s1, t) → buildCount t = 0) ∧
    (∀ f s' i rect s1 t, SetAllocation f s' i rect = some (s1, t) → buildCount t = 0) ∧
    (∀ f s' i position s1 t, SetPosition f s' i position = some (s1, t) →
      buildCount t = 0) ∧
    (∀ cr f s' i s1 t, RequestResize cr f s' i = some (s1, t) → buildCount t = 0) := by
  refine ⟨?_, fun _ _ _ _ h => Invalidate_buildCount h,
    fun _ _ _ _ _ _ h => SetAllocation_buildCount h, ?_,
    fun cr f s' i s1 t h => RequestResize_buildCount cr f s' s1 i t h⟩
  · obtain ⟨w, hw⟩ := ParentChain_some_getElem? hc
    obtain ⟨tN, hN, hbN⟩ := InvalidateTimes_succ n hw
    have hwN : (s.set self { w with m_invalidated := true })[self]? =
        some ({ w with m_invalidated := true } : Widget) := getElem?_set_same hw
    have hlN : SameLinks s (s.set self { w with m_invalidated := true }) :=
      SameLinks.set hw rfl
    have hcN : ParentChain fuel (s.set self { w with m_invalidated := true }) self = some c := by
      rw [ParentChain_sameLinks hlN]
      exact hc
    obtain ⟨⟨s1, t1⟩, he1⟩ := Expose_some impl hcN
    obtain ⟨t0, w1, hr1, hw1, ht1⟩ := Expose_inv impl he1
    obtain ⟨w1', hw1', hi1, _, _, ht0, hl1⟩ := ExposeRebuild_result impl hwN hr1
    rw [hw1] at hw1'
    cases hw1'
    have hc1 : ParentChain fuel s1 self = some c := by
      rw [ParentChain_sameLinks hl1]
      exact hcN
    obtain ⟨⟨s2, t2⟩, he2⟩ := Expose_some impl hc1
    obtain ⟨t0', w2, hr2, hw2, ht2⟩ := Expose_inv impl he2
    obtain ⟨w2', _, _, _, _, ht0', _⟩ := ExposeRebuild_result impl hw1 hr2
    refine ⟨_, tN, s1, t1, w1, s2, t2, hN, he1, ?_, hw1, hi1, he2, ?_⟩
    · rw [ht1, ht0]
      unfold buildCount at hbN ⊢
      rw [List.countP_append, hbN]
      by_cases hv : w1.m_visible = true
      · cases hd : w1.m_drawable <;> simp [hv]
      · simp [hv]
    · rw [ht2, ht0', hi1]
      unfold buildCount
      by_cases hv : w2.m_visible = true
      · cases hd : w2.m_drawable <;> simp [hv]
      · simp [hv]
  · intro f s' i position s1 t h
    obtain ⟨w, hw⟩ := SetPosition_getElem? h
    rcases SetPosition_inv hw h with ⟨_, _, ht⟩ | ⟨_, d, _, _, ht⟩
    · subst ht
      rfl
    · subst ht
      rfl

theorem Expose_builds_once_witness :
    (∃ sN tN s1 t1 w1 s2 t2,
      InvalidateTimes (4 + 1) threeLevels 2 = some (sN, tN) ∧
      Expose (fun i => some ⟨i, ⟨0, 0⟩, false⟩) 3 sN 2 = some (s1, t1) ∧
      buildCount (tN ++ t1) = 1 ∧
      s1[2]? = some w1 ∧ w1.m_invalidated = false ∧
      Expose (fun i => some ⟨i, ⟨0, 0⟩, false⟩) 3 s1 2 = some (s2, t2) ∧
      buildCount t2 = 0) :=
  (Expose_builds_once (fun i => some ⟨i, ⟨0, 0⟩, false⟩) 3 threeLevels 2 4 [2, 1, 0]
    threeLevels_chain).1

/-- C10: `Expose` returns whenever the parent chain is finite. Whenever it
returns on a widget with `visible == false`, its trace holds no draw call and
no invocation of the expose-children hook `HandleExpose` (at most the rebuild
of the own drawable); on a visible widget the trace is the rebuild, if the
widget was invalidated, then the draw of the cached drawable, if there is
one, then `HandleExpose`, which is so invoked exactly once. -/
theorem Expose_visibility (impl : Nat → Option RenderQueue) (fuel : Nat) (s : World)
    (self : Nat) (w : Widget) (hw : s[self]? = some w) :
    (∀ c, ParentChain fuel s self = some c → ∃ r, Expose impl fuel s self = some r) ∧
    (∀ s1 t, Expose impl fuel s self = some (s1, t) →
      ∃ w1, s1[self]? = some w1 ∧
        (w.m_visible = false →
          t = (if w.m_invalidated then [Event.InvalidateImpl self] else []) ∧
          (∀ e ∈ t, e.isDraw = false) ∧ (∀ j, Event.HandleExpose j ∉ t)) ∧
        (w.m_visible = true →
          t = (if w.m_invalidated then [Event.InvalidateImpl self] else []) ++
              (match w1.m_drawable with
                | some d => [Event.Draw self d]
                | none => []) ++ [Event.HandleExpose self] ∧
          t.count (Event.HandleExpose self) = 1)) := by
  refine ⟨fun c hc => Expose_some impl hc, ?_⟩
  intro s1 t h
  obtain ⟨t0, w1, hr, hw1, ht⟩ := Expose_inv impl h
  obtain ⟨w1', hw1', _, hv, _, ht0, _⟩ := ExposeRebuild_result impl hw hr
  rw [hw1] at hw1'
  cases hw1'
  refine ⟨w1, hw1, ?_, ?_⟩
  · intro hf
    rw [hf] at hv
    rw [hv] at ht
    simp only [Bool.false_eq_true, if_false, List.append_nil] at ht
    rw [ht, ht0]
    refine ⟨rfl, ?_, ?_⟩
    · intro e he
      by_cases hi : w.m_invalidated = true
      · simp [hi] at he
        subst he
        rfl
      · simp [hi] at he
    · intro j hj
      by_cases hi : w.m_invalidated = true
      · simp [hi] at hj
      · simp [hi] at hj
  · intro htrue
    rw [htrue] at hv
    rw [hv] at ht
    simp only [if_true] at ht
    rw [ht, ht0, List.append_assoc]
    refine ⟨rfl, ?_⟩
    by_cases hi : w.m_invalidated = true
    · cases hd : w1.m_drawable <;> simp [hi]
    · cases hd : w1.m_drawable <;> simp [hi]

theorem Expose_visibility_witness :
    ([hiddenWidget] : World)[0]? = some hiddenWidget ∧
      ∃ w1, ([hiddenWidget] : World)[0]? = some w1 ∧
        (hiddenWidget.m_visible = false →
          ([] : List Event) =
              (if hiddenWidget.m_invalidated then [Event.InvalidateImpl 0] else []) ∧
          (∀ e ∈ ([] : List Event), e.isDraw = false) ∧
          (∀ j, Event.HandleExpose j ∉ ([] : List Event))) ∧
        (hiddenWidget.m_visible = true →
          ([] : List Event) =
              (if hiddenWidget.m_invalidated then [Event.InvalidateImpl 0] else []) ++
              (match w1.m_drawable with
                | some d => [Event.Draw 0 d]
                | none => []) ++ [Event.HandleExpose 0] ∧
          ([] : List Event).count (Event.HandleExpose 0) = 1) :=
  have hrun : Expose (fun _ => none) 1 [hiddenWidget] 0 = some ([hiddenWidget], []) := by
    simp [Expose, ExposeRebuild, hiddenWidget, Widget.Widget]
  ⟨rfl, (Expose_visibility (fun _ => none) 1 [hiddenWidget] 0 hiddenWidget rfl).2 _ _ hrun⟩

end sfg

namespace sfg

/-! ## `HandleEvent` -/

theorem HandleEvent_invisible {s : World} {self : Nat} {w : Widget} (hw : s[self]? = some w)
    (hv : w.m_visible = false) (event : sf.Event) :
    HandleEvent s self event = some (s, []) := by
  unfold HandleEvent
  rw [hw]
  simp [hv]

/-- An accepted press: no button down and the pointer inside. -/
theorem HandleEvent_press_accepted {s : World} {self : Nat} {w : Widget}
    (hw : s[self]? = some w) (hv : w.m_visible = true) (hd : w.m_mouse_button_down = -1)
    (hin : w.m_mouse_in = true) (b : Nat) (X Y : Int) :
    HandleEvent s self (sf.Event.MouseButtonPressed b X Y) =
      some (s.set self { w with m_mouse_button_down := (b : Int) },
        [Event.SetActiveWidget self, Event.HandleMouseButtonEvent self b true X Y,
         Event.OnMouseButtonPress self]) := by
  unfold HandleEvent
  rw [hw]
  simp [hv, hd, hin]

/-- A dropped press: a button is down or the pointer is outside. -/
theorem HandleEvent_press_dropped {s : World} {self : Nat} {w : Widget}
    (hw : s[self]? = some w) (hv : w.m_visible = true)
    (h : ¬ (w.m_mouse_button_down = -1 ∧ w.m_mouse_in = true)) (b : Nat) (X Y : Int) :
    HandleEvent s self (sf.Event.MouseButtonPressed b X Y) =
      some (s, [Event.SetActiveWidget self]) := by
  unfold HandleEvent
  rw [hw]
  by_cases hd : w.m_mouse_button_down = -1
  · have hin : ¬ w.m_mouse_in = true := fun hin => h ⟨hd, hin⟩
    simp [hv, hd, hin, set_of_getElem? s self w hw]
  · simp [hv, hd, set_of_getElem? s self w hw]

/-- A release of the button that is down. -/
theorem HandleEvent_release_matching {s : World} {self : Nat} {w : Widget}
    (hw : s[self]? = some w) (hv : w.m_visible = true) (b : Nat)
    (hd : w.m_mouse_button_down = (b : Int)) (X Y : Int) :
    HandleEvent s self (sf.Event.MouseButtonReleased b X Y) =
      some (s.set self { w with m_mouse_button_down := -1 },
        Event.SetActiveWidget self ::
          ((if w.m_mouse_in = true then [Event.HandleMouseClick self b X Y] else []) ++
           [Event.OnMouseButtonRelease self,
            Event.HandleMouseButtonEvent self b false X Y])) := by
  unfold HandleEvent
  rw [hw]
  by_cases hin : w.m_mouse_in = true
  · simp [hv, hd, hin]
  · simp [hv, hd, hin]

/-- A release of a button that is not the one down. -/
theorem HandleEvent_release_other {s : World} {self : Nat} {w : Widget}
    (hw : s[self]? = some w) (hv : w.m_visible = true) (b : Nat)
    (hd : w.m_mouse_button_down ≠ (b : Int)) (X Y : Int) :
    HandleEvent s self (sf.Event.MouseButtonReleased b X Y) =
      some (s, [Event.SetActiveWidget self,
        Event.HandleMouseButtonEvent self b false X Y]) := by
  unfold HandleEvent
  rw [hw]
  simp [hv, hd, set_of_getElem? s self w hw]

/-- A pointer move. -/
theorem HandleEvent_move {s : World} {self : Nat} {w : Widget}
    (hw : s[self]? = some w) (hv : w.m_visible = true) (X Y : Int) :
    HandleEvent s self (sf.Event.MouseMoved X Y) =
      some (s.set self { w with m_mouse_in := w.m_allocation.Contains (X : ℚ) (Y : ℚ) },
        Event.SetActiveWidget self ::
          ((if w.m_allocation.Contains (X : ℚ) (Y : ℚ) = true then
              (if w.m_mouse_in = false then
                [Event.OnMouseEnter self, Event.HandleMouseEnter self X Y] else []) ++
              [Event.OnMouseMove self]
            else if w.m_mouse_in = true then
              [Event.OnMouseLeave self, Event.HandleMouseLeave self X Y]
            else []) ++ [Event.HandleMouseMoveEvent self X Y])) := by
  unfold HandleEvent
  rw [hw]
  dsimp only
  rw [if_neg (by simp [hv])]
  cases hc : w.m_allocation.Contains (X : ℚ) (Y : ℚ) <;> cases hin : w.m_mouse_in
  · have he : ({ w with m_mouse_in := false } : Widget) = w := by
      cases w
      simp_all
    simp [he]
  · simp
  · simp
  · have he : ({ w with m_mouse_in := true } : Widget) = w := by
      cases w
      simp_all
    simp [he]

/-- A key or text event. -/
theorem HandleEvent_key {s : World} {self : Nat} {w : Widget}
    (hw : s[self]? = some w) (hv : w.m_visible = true) :
    (∀ Code, HandleEvent s self (sf.Event.KeyPressed Code) =
      some (s, Event.SetActiveWidget self ::
        (if w.m_state = State.ACTIVE then
          [Event.HandleKeyEvent self Code true, Event.OnKeyPress self] else []))) ∧
    (∀ Code, HandleEvent s self (sf.Event.KeyReleased Code) =
      some (s, Event.SetActiveWidget self ::
        (if w.m_state = State.ACTIVE then
          [Event.HandleKeyEvent self Code false, Event.OnKeyRelease self] else []))) ∧
    (∀ Unicode, HandleEvent s self (sf.Event.TextEntered Unicode) =
      some (s, Event.SetActiveWidget self ::
        (if w.m_state = State.ACTIVE then
          [Event.HandleTextEvent self Unicode, Event.OnText self] else []))) ∧
    HandleEvent s self sf.Event.Other = some (s, [Event.SetActiveWidget self]) := by
  refine ⟨?_, ?_, ?_, ?_⟩
  · intro Code
    unfold HandleEvent
    rw [hw]
    by_cases ha : w.m_state = State.ACTIVE <;> simp [hv, ha, set_of_getElem? s self w hw]
  · intro Code
    unfold HandleEvent
    rw [hw]
    by_cases ha : w.m_state = State.ACTIVE <;> simp [hv, ha, set_of_getElem? s self w hw]
  · intro Unicode
    unfold HandleEvent
    rw [hw]
    by_cases ha : w.m_state = State.ACTIVE <;> simp [hv, ha, set_of_getElem? s self w hw]
  · unfold HandleEvent
    rw [hw]
    simp [hv, set_of_getElem? s self w hw]

end sfg

namespace sfg

/-! ## C12 – C17 -/

theorem HandleEvent_keeps_down {s : World} {self : Nat} {w : Widget}
    (hw : s[self]? = some w) (hv : w.m_visible = true) (b : Nat)
    (hd : w.m_mouse_button_down = (b : Int)) (event : sf.Event)
    (he : event.isRelease = false) :
    ∃ s1 t1 w1, HandleEvent s self event = some (s1, t1) ∧ s1[self]? = some w1 ∧
      w1.m_visible = true ∧ w1.m_mouse_button_down = (b : Int) := by
  have hb : ¬ ((b : Int) = -1) := by omega
  cases event with
  | MouseMoved X Y =>
    exact ⟨_, _, _, HandleEvent_move hw hv X Y, getElem?_set_same hw, hv, hd⟩
  | MouseButtonPressed b' X Y =>
    refine ⟨_, _, w, HandleEvent_press_dropped hw hv ?_ b' X Y, hw, hv, hd⟩
    rintro ⟨h1, _⟩
    rw [hd] at h1
    exact hb h1
  | MouseButtonReleased b' X Y => simp [sf.Event.isRelease] at he
  | KeyPressed Code => exact ⟨_, _, w, (HandleEvent_key hw hv).1 Code, hw, hv, hd⟩
  | KeyReleased Code => exact ⟨_, _, w, (HandleEvent_key hw hv).2.1 Code, hw, hv, hd⟩
  | TextEntered Unicode => exact ⟨_, _, w, (HandleEvent_key hw hv).2.2.1 Unicode, hw, hv, hd⟩
  | Other => exact ⟨_, _, w, (HandleEvent_key hw hv).2.2.2, hw, hv, hd⟩

theorem HandleEvents_keeps_down (self : Nat) (b : Nat) :
    ∀ (mid : List sf.Event) (s : World) (w : Widget), s[self]? = some w →
      w.m_visible = true → w.m_mouse_button_down = (b : Int) →
      (∀ e ∈ mid, e.isRelease = false) →
      ∃ s2 t2 w2, HandleEvents mid s self = some (s2, t2) ∧ s2[self]? = some w2 ∧
        w2.m_visible = true ∧ w2.m_mouse_button_down = (b : Int) := by
  intro mid
  induction mid with
  | nil =>
    intro s w hw hv hd _
    exact ⟨s, [], w, rfl, hw, hv, hd⟩
  | cons e rest ih =>
    intro s w hw hv hd hmid
    obtain ⟨s1, t1, w1, h1, hw1, hv1, hd1⟩ :=
      HandleEvent_keeps_down hw hv b hd e (hmid e (List.mem_cons_self _ _))
    obtain ⟨s2, t2, w2, h2, hw2, hv2, hd2⟩ :=
      ih s1 w1 hw1 hv1 hd1 (fun e' he' => hmid e' (List.mem_cons_of_mem _ he'))
    refine ⟨s2, t1 ++ t2, w2, ?_, hw2, hv2, hd2⟩
    unfold HandleEvents
    rw [h1]
    dsimp only
    rw [h2]

/-- C12: on a visible widget a press is accepted exactly when no button is
down and the pointer is inside: it then sets the down-button and fires the
button-delegate hook and the press notification; otherwise it is dropped,
fires neither of the two and leaves the whole store unchanged. After an
accepted press of `b1`, and any events in between that are not releases, a
press of `b2` is dropped: it fires no button-delegate hook and no press
notification, changes nothing, and the down-button is still `b1`. -/
theorem HandleEvent_press_dedup (s : World) (self : Nat) (w : Widget)
    (hw : s[self]? = some w) (hv : w.m_visible = true) (b1 b2 : Nat)
    (X1 Y1 X2 Y2 : Int) (mid : List sf.Event) (hmid : ∀ e ∈ mid, e.isRelease = false) :
    (∃ s1 t1, HandleEvent s self (sf.Event.MouseButtonPressed b1 X1 Y1) = some (s1, t1) ∧
      ((w.m_mouse_button_down = -1 ∧ w.m_mouse_in = true) →
        s1 = s.set self { w with m_mouse_button_down := (b1 : Int) } ∧
        t1 = [Event.SetActiveWidget self, Event.HandleMouseButtonEvent self b1 true X1 Y1,
              Event.OnMouseButtonPress self]) ∧
      (¬ (w.m_mouse_button_down = -1 ∧ w.m_mouse_in = true) →
        s1 = s ∧ t1 = [Event.SetActiveWidget self])) ∧
    ((w.m_mouse_button_down = -1 ∧ w.m_mouse_in = true) →
      ∃ s1 t1 s2 t2 w2,
        HandleEvent s self (sf.Event.MouseButtonPressed b1 X1 Y1) = some (s1, t1) ∧
        HandleEvents mid s1 self = some (s2, t2) ∧
        s2[self]? = some w2 ∧
        HandleEvent s2 self (sf.Event.MouseButtonPressed b2 X2 Y2) =
          some (s2, [Event.SetActiveWidget self]) ∧
        w2.m_mouse_button_down = (b1 : Int)) := by
  constructor
  · by_cases h : w.m_mouse_button_down = -1 ∧ w.m_mouse_in = true
    · exact ⟨_, _, HandleEvent_press_accepted hw hv h.1 h.2 b1 X1 Y1,
        fun _ => ⟨rfl, rfl⟩, fun hn => absurd h hn⟩
    · exact ⟨_, _, HandleEvent_press_dropped hw hv h b1 X1 Y1,
        fun hp => absurd hp h, fun _ => ⟨rfl, rfl⟩⟩
  · intro h
    have hw1 : (s.set self { w with m_mouse_button_down := (b1 : Int) })[self]? =
        some ({ w with m_mouse_button_down := (b1 : Int) } : Widget) := getElem?_set_same hw
    obtain ⟨s2, t2, w2, h2, hw2, hv2, hd2⟩ :=
      HandleEvents_keeps_down self b1 mid _ _ hw1 hv rfl hmid
    refine ⟨_, _, s2, t2, w2, HandleEvent_press_accepted hw hv h.1 h.2 b1 X1 Y1, h2, hw2,
      ?_, hd2⟩
    apply HandleEvent_press_dropped hw2 hv2
    rintro ⟨hd, _⟩
    rw [hd2] at hd
    omega

theorem HandleEvent_press_dedup_witness :
    ∃ s1 t1 s2 t2 w2,
      HandleEvent [hoveredWidget] 0 (sf.Event.MouseButtonPressed 0 5 5) = some (s1, t1) ∧
      HandleEvents [sf.Event.MouseMoved 6 6, sf.Event.KeyPressed 3] s1 0 = some (s2, t2) ∧
      s2[0]? = some w2 ∧
      HandleEvent s2 0 (sf.Event.MouseButtonPressed 1 6 6) =
        some (s2, [Event.SetActiveWidget 0]) ∧
      w2.m_mouse_button_down = ((0 : Nat) : Int) :=
  (HandleEvent_press_dedup [hoveredWidget] 0 hoveredWidget rfl rfl 0 1 5 5 6 6
    [sf.Event.MouseMoved 6 6, sf.Event.KeyPressed 3] (by decide)).2 ⟨rfl, rfl⟩

/-- C13 (as stated, refuted): a freshly constructed, visible widget with the
allocation `{0, 0, 100, 100}` and no button down is sent a press of button 0
at (10, 10) and a release of button 0 at (10, 10), both inside its
allocation: no press notification, no click and no release notification is
recorded, because `mouse_in` is still false. -/
theorem HandleEvents_press_release_without_move :
    HandleEvents [sf.Event.MouseButtonPressed 0 10 10, sf.Event.MouseButtonReleased 0 10 10]
        [plainWidget] 0 =
      some ([plainWidget],
        [Event.SetActiveWidget 0, Event.SetActiveWidget 0,
         Event.HandleMouseButtonEvent 0 0 false 10 10]) ∧
    plainWidget.m_visible = true ∧ plainWidget.m_mouse_button_down = -1 ∧
    plainWidget.m_allocation.Contains 10 10 = true := by
  refine ⟨by decide, rfl, rfl, ?_⟩
  norm_num [plainWidget, FloatRect.Contains]

/-- C13 (amended): on a visible widget with no button down whose `mouse_in`
flag is set, a press of a button followed by a release of the same button
records exactly one press notification, one click and one release
notification, in the order press, click, release, and leaves the store as it
was; and from any visible widget with no button down, a pointer move to a
point inside the allocation sets the flag, so that the move followed by the
press and the release ends with that same record. -/
theorem HandleEvents_press_click_release (s : World) (self : Nat) (w : Widget)
    (hw : s[self]? = some w) (hv : w.m_visible = true) (hd : w.m_mouse_button_down = -1)
    (b : Nat) (X Y : Int) :
    (w.m_mouse_in = true →
      HandleEvents [sf.Event.MouseButtonPressed b X Y, sf.Event.MouseButtonReleased b X Y]
          s self =
        some (s,
          [Event.SetActiveWidget self, Event.HandleMouseButtonEvent self b true X Y,
           Event.OnMouseButtonPress self,
           Event.SetActiveWidget self, Event.HandleMouseClick self b X Y,
           Event.OnMouseButtonRelease self,
           Event.HandleMouseButtonEvent self b false X Y])) ∧
    (w.m_allocation.Contains (X : ℚ) (Y : ℚ) = true →
      ∃ s1 t1, HandleEvent s self (sf.Event.MouseMoved X Y) = some (s1, t1) ∧
        HandleEvents [sf.Event.MouseMoved X Y, sf.Event.MouseButtonPressed b X Y,
            sf.Event.MouseButtonReleased b X Y] s self =
          some (s1, t1 ++
            [Event.SetActiveWidget self, Event.HandleMouseButtonEvent self b true X Y,
             Event.OnMouseButtonPress self,
             Event.SetActiveWidget self, Event.HandleMouseClick self b X Y,
             Event.OnMouseButtonRelease self,
             Event.HandleMouseButtonEvent self b false X Y])) := by
  have key : ∀ (s' : World) (w' : Widget), s'[self]? = some w' → w'.m_visible = true →
      w'.m_mouse_button_down = -1 → w'.m_mouse_in = true →
      HandleEvents [sf.Event.MouseButtonPressed b X Y, sf.Event.MouseButtonReleased b X Y]
          s' self =
        some (s',
          [Event.SetActiveWidget self, Event.HandleMouseButtonEvent self b true X Y,
           Event.OnMouseButtonPress self,
           Event.SetActiveWidget self, Event.HandleMouseClick self b X Y,
           Event.OnMouseButtonRelease self,
           Event.HandleMouseButtonEvent self b false X Y]) := by
    intro s' w' hw' hv' hd' hin'
    have hw1 : (s'.set self { w' with m_mouse_button_down := (b : Int) })[self]? =
        some ({ w' with m_mouse_button_down := (b : Int) } : Widget) := getElem?_set_same hw'
    have h2 := HandleEvent_release_matching hw1 hv' b rfl X Y
    have he : ({ w' with m_mouse_button_down := -1 } : Widget) = w' := by
      cases w'
      simp_all
    dsimp only at h2
    rw [set_set_same, he, set_of_getElem? s' self w' hw', if_pos hin'] at h2
    unfold HandleEvents
    rw [HandleEvent_press_accepted hw' hv' hd' hin' b X Y]
    dsimp only
    unfold HandleEvents
    rw [h2]
    rfl
  constructor
  · intro hin
    exact key s w hw hv hd hin
  · intro hc
    have hm := HandleEvent_move hw hv X Y
    refine ⟨_, _, hm, ?_⟩
    have hw1 : (s.set self { w with m_mouse_in := w.m_allocation.Contains (X : ℚ) (Y : ℚ) })[self]? =
        some ({ w with m_mouse_in := w.m_allocation.Contains (X : ℚ) (Y : ℚ) } : Widget) :=
      getElem?_set_same hw
    have hk := key _ _ hw1 hv hd hc
    unfold HandleEvents
    rw [hm]
    dsimp only
    rw [hk]

theorem HandleEvents_press_click_release_witness :
    HandleEvents [sf.Event.MouseButtonPressed 0 10 10, sf.Event.MouseButtonReleased 0 10 10]
        [hoveredWidget] 0 =
      some ([hoveredWidget],
        [Event.SetActiveWidget 0, Event.HandleMouseButtonEvent 0 0 true 10 10,
         Event.OnMouseButtonPress 0,
         Event.SetActiveWidget 0, Event.HandleMouseClick 0 0 10 10,
         Event.OnMouseButtonRelease 0,
         Event.HandleMouseButtonEvent 0 0 false 10 10]) :=
  (HandleEvents_press_click_release [hoveredWidget] 0 hoveredWidget rfl rfl rfl 0 10 10).1 rfl

end sfg

namespace sfg

/-- C14: on a visible widget with no button down and the pointer inside, a
press of button `b` is accepted; when the pointer then moves to a point
outside the allocation and `b` is released, the release notification fires,
the click hook does not fire, and the down-button is back at -1. -/
theorem HandleEvents_release_outside (s : World) (self : Nat) (w : Widget)
    (hw : s[self]? = some w) (hv : w.m_visible = true) (hd : w.m_mouse_button_down = -1)
    (hin : w.m_mouse_in = true) (b : Nat) (X Y X' Y' X'' Y'' : Int)
    (hout : w.m_allocation.Contains (X' : ℚ) (Y' : ℚ) = false) :
    ∃ s3 t w3,
      HandleEvents [sf.Event.MouseButtonPressed b X Y, sf.Event.MouseMoved X' Y',
          sf.Event.MouseButtonReleased b X'' Y''] s self = some (s3, t) ∧
      t = [Event.SetActiveWidget self, Event.HandleMouseButtonEvent self b true X Y,
           Event.OnMouseButtonPress self,
           Event.SetActiveWidget self, Event.OnMouseLeave self,
           Event.HandleMouseLeave self X' Y', Event.HandleMouseMoveEvent self X' Y',
           Event.SetActiveWidget self, Event.OnMouseButtonRelease self,
           Event.HandleMouseButtonEvent self b false X'' Y''] ∧
      s3[self]? = some w3 ∧ w3.m_mouse_button_down = -1 ∧ w3.m_mouse_in = false ∧
      Event.OnMouseButtonRelease self ∈ t ∧
      (∀ b' x y, Event.HandleMouseClick self b' x y ∉ t) := by
  have h1 := HandleEvent_press_accepted hw hv hd hin b X Y
  have hw1 : (s.set self { w with m_mouse_button_down := (b : Int) })[self]? =
      some ({ w with m_mouse_button_down := (b : Int) } : Widget) := getElem?_set_same hw
  have h2 := HandleEvent_move hw1 hv X' Y'
  dsimp only at h2
  rw [hout, set_set_same] at h2
  have hw2 : (s.set self { w with
      m_mouse_button_down := (b : Int), m_mouse_in := false })[self]? =
      some ({ w with m_mouse_button_down := (b : Int), m_mouse_in := false } : Widget) :=
    getElem?_set_same hw
  have h3 := HandleEvent_release_matching hw2 hv b rfl X'' Y''
  dsimp only at h3
  rw [set_set_same] at h3
  refine ⟨s.set self { w with m_mouse_button_down := -1, m_mouse_in := false },
    [Event.SetActiveWidget self, Event.HandleMouseButtonEvent self b true X Y,
     Event.OnMouseButtonPress self,
     Event.SetActiveWidget self, Event.OnMouseLeave self,
     Event.HandleMouseLeave self X' Y', Event.HandleMouseMoveEvent self X' Y',
     Event.SetActiveWidget self, Event.OnMouseButtonRelease self,
     Event.HandleMouseButtonEvent self b false X'' Y''],
    ({ w with m_mouse_button_down := -1, m_mouse_in := false } : Widget),
    ?_, rfl, getElem?_set_same hw, rfl, rfl, ?_, ?_⟩
  · unfold HandleEvents
    rw [h1]
    dsimp only
    unfold HandleEvents
    rw [h2]
    dsimp only
    unfold HandleEvents
    rw [h3]
    simp [hin, HandleEvents]
  · simp
  · intro b' x y
    simp

theorem HandleEvents_release_outside_witness :
    ∃ s3 t w3,
      HandleEvents [sf.Event.MouseButtonPressed 0 10 10, sf.Event.MouseMoved 200 10,
          sf.Event.MouseButtonReleased 0 200 10] [hoveredWidget] 0 = some (s3, t) ∧
      t = [Event.SetActiveWidget 0, Event.HandleMouseButtonEvent 0 0 true 10 10,
           Event.OnMouseButtonPress 0,
           Event.SetActiveWidget 0, Event.OnMouseLeave 0,
           Event.HandleMouseLeave 0 200 10, Event.HandleMouseMoveEvent 0 200 10,
           Event.SetActiveWidget 0, Event.OnMouseButtonRelease 0,
           Event.HandleMouseButtonEvent 0 0 false 200 10] ∧
      s3[0]? = some w3 ∧ w3.m_mouse_button_down = -1 ∧ w3.m_mouse_in = false ∧
      Event.OnMouseButtonRelease 0 ∈ t ∧
      (∀ b' x y, Event.HandleMouseClick 0 b' x y ∉ t) :=
  HandleEvents_release_outside [hoveredWidget] 0 hoveredWidget rfl rfl rfl rfl 0 10 10 200 10
    200 10 (by norm_num [hoveredWidget, FloatRect.Contains])

/-- C15 (as stated, refuted): a visible widget with no button down is sent a
release of button 0: the button-delegate hook `HandleMouseButtonEvent` fires
all the same. -/
theorem HandleEvent_unmatched_release_delegates :
    HandleEvent [plainWidget] 0 (sf.Event.MouseButtonReleased 0 10 10) =
      some ([plainWidget],
        [Event.SetActiveWidget 0, Event.HandleMouseButtonEvent 0 0 false 10 10]) ∧
    plainWidget.m_visible = true ∧ plainWidget.m_mouse_button_down ≠ ((0 : Nat) : Int) := by
  decide

/-- C15 (amended): on a visible widget a release of a button that is not the
widget's down-button (also when no button is down) fires neither the click
hook nor the release notification and leaves the store, hence the down-button
and `mouse_in`, unchanged; the button-delegate hook fires once, with
`press == false`. -/
theorem HandleEvent_unmatched_release (s : World) (self : Nat) (w : Widget)
    (hw : s[self]? = some w) (hv : w.m_visible = true) (b : Nat)
    (hd : w.m_mouse_button_down ≠ (b : Int)) (X Y : Int) :
    ∃ t, HandleEvent s self (sf.Event.MouseButtonReleased b X Y) = some (s, t) ∧
      t = [Event.SetActiveWidget self, Event.HandleMouseButtonEvent self b false X Y] ∧
      (∀ b' x y, Event.HandleMouseClick self b' x y ∉ t) ∧
      Event.OnMouseButtonRelease self ∉ t ∧
      t.count (Event.HandleMouseButtonEvent self b false X Y) = 1 := by
  refine ⟨_, HandleEvent_release_other hw hv b hd X Y, rfl, ?_, ?_, ?_⟩
  · intro b' x y
    simp
  · simp
  · simp

theorem HandleEvent_unmatched_release_witness :
    ∃ t, HandleEvent [hoveredWidget] 0 (sf.Event.MouseButtonReleased 2 10 10) =
        some ([hoveredWidget], t) ∧
      t = [Event.SetActiveWidget 0, Event.HandleMouseButtonEvent 0 2 false 10 10] ∧
      (∀ b' x y, Event.HandleMouseClick 0 b' x y ∉ t) ∧
      Event.OnMouseButtonRelease 0 ∉ t ∧
      t.count (Event.HandleMouseButtonEvent 0 2 false 10 10) = 1 :=
  HandleEvent_unmatched_release [hoveredWidget] 0 hoveredWidget rfl rfl 2 (by decide) 10 10

/-- C16: on a visible widget whose state is not ACTIVE a key-press,
key-release or text-entered event is dropped: the trace holds only the
setting of the active widget in the context, and the store is unchanged; when
the state is ACTIVE the delegate hook fires and then the notification. On a
widget that is not visible `HandleEvent` of any event leaves the store
unchanged and has an empty trace (the active widget is not set). -/
theorem HandleEvent_keys (s : World) (self : Nat) (w : Widget) (hw : s[self]? = some w) :
    (w.m_visible = true → w.m_state ≠ State.ACTIVE →
      (∀ Code, HandleEvent s self (sf.Event.KeyPressed Code) =
        some (s, [Event.SetActiveWidget self])) ∧
      (∀ Code, HandleEvent s self (sf.Event.KeyReleased Code) =
        some (s, [Event.SetActiveWidget self])) ∧
      (∀ Unicode, HandleEvent s self (sf.Event.TextEntered Unicode) =
        some (s, [Event.SetActiveWidget self]))) ∧
    (w.m_visible = true → w.m_state = State.ACTIVE →
      (∀ Code, HandleEvent s self (sf.Event.KeyPressed Code) =
        some (s, [Event.SetActiveWidget self, Event.HandleKeyEvent self Code true,
          Event.OnKeyPress self])) ∧
      (∀ Code, HandleEvent s self (sf.Event.KeyReleased Code) =
        some (s, [Event.SetActiveWidget self, Event.HandleKeyEvent self Code false,
          Event.OnKeyRelease self])) ∧
      (∀ Unicode, HandleEvent s self (sf.Event.TextEntered Unicode) =
        some (s, [Event.SetActiveWidget self, Event.HandleTextEvent self Unicode,
          Event.OnText self]))) ∧
    (w.m_visible = false → ∀ event, HandleEvent s self event = some (s, [])) := by
  refine ⟨?_, ?_, fun hv event => HandleEvent_invisible hw hv event⟩
  · intro hv hn
    obtain ⟨h1, h2, h3, _⟩ := HandleEvent_key hw hv
    refine ⟨fun c => ?_, fun c => ?_, fun u => ?_⟩
    · rw [h1 c, if_neg hn]
    · rw [h2 c, if_neg hn]
    · rw [h3 u, if_neg hn]
  · intro hv ha
    obtain ⟨h1, h2, h3, _⟩ := HandleEvent_key hw hv
    refine ⟨fun c => ?_, fun c => ?_, fun u => ?_⟩
    · rw [h1 c, if_pos ha]
    · rw [h2 c, if_pos ha]
    · rw [h3 u, if_pos ha]

theorem HandleEvent_keys_witness :
    (∀ Code, HandleEvent [plainWidget] 0 (sf.Event.KeyPressed Code) =
      some ([plainWidget], [Event.SetActiveWidget 0])) ∧
    (∀ Code, HandleEvent [plainWidget] 0 (sf.Event.KeyReleased Code) =
      some ([plainWidget], [Event.SetActiveWidget 0])) ∧
    (∀ Unicode, HandleEvent [plainWidget] 0 (sf.Event.TextEntered Unicode) =
      some ([plainWidget], [Event.SetActiveWidget 0])) :=
  (HandleEvent_keys [plainWidget] 0 plainWidget rfl).1 rfl (by decide)

end sfg

namespace sfg

/-! ## `Refresh` -/

theorem RequestResize_sameLinks (cr : Nat → Vector2f) :
    ∀ (fuel : Nat) (s s1 : World) (self : Nat) (t : List Event),
      RequestResize cr fuel s self = some (s1, t) → SameLinks s s1 := by
  intro fuel
  induction fuel with
  | zero =>
    intro s s1 self t h
    simp [RequestResize] at h
  | succ n ih =>
    intro s s1 self t h
    unfold RequestResize at h
    cases hw : s[self]? with
    | none => rw [hw] at h; simp at h
    | some w =>
      rw [hw] at h
      dsimp only at h
      have hl1 : SameLinks s (s.set self { w with
          m_requisition := combineRequisition (cr self) w.m_custom_requisition }) :=
        SameLinks.set hw rfl
      cases hl : lock s w.m_parent with
      | some parent =>
        rw [hl] at h
        dsimp only at h
        cases hr : RequestResize cr n (s.set self { w with
            m_requisition := combineRequisition (cr self) w.m_custom_requisition }) parent with
        | none => rw [hr] at h; simp at h
        | some r =>
          obtain ⟨s2, t2⟩ := r
          rw [hr] at h
          simp only [Option.some.injEq, Prod.mk.injEq] at h
          rw [← h.1]
          exact hl1.trans (ih _ _ _ _ hr)
      | none =>
        rw [hl] at h
        dsimp only at h
        cases hr : SetAllocation (n + 1) (s.set self { w with
            m_requisition := combineRequisition (cr self) w.m_custom_requisition }) self
            ⟨w.m_allocation.Left, w.m_allocation.Top,
             max w.m_allocation.Width
               (combineRequisition (cr self) w.m_custom_requisition).x,
             max w.m_allocation.Height
               (combineRequisition (cr self) w.m_custom_requisition).y⟩ with
        | none => rw [hr] at h; simp at h
        | some r =>
          obtain ⟨s2, t2⟩ := r
          rw [hr] at h
          simp only [Option.some.injEq, Prod.mk.injEq] at h
          obtain ⟨_, _, _, _, hl2⟩ := SetAllocation_result (getElem?_set_same hw) hr
          rw [← h.1]
          exact hl1.trans hl2

theorem invalidateTrace_mem {b : Bool} {o : Option Nat} {self : Nat} {e : Event}
    (he : e ∈ (if b = true then ([] : List Event)
      else match o with
        | some parent => [Event.HandleChildInvalidate parent self]
        | none => [])) :
    ∃ p, e = Event.HandleChildInvalidate p self := by
  cases b with
  | true => simp at he
  | false =>
    cases o with
    | none => simp at he
    | some p =>
      simp at he
      exact ⟨p, he⟩

/-- The resize pass started anywhere leaves the allocation of every widget
that has a parent untouched and fires neither its absolute-position hook nor
its allocation-change hook. -/
theorem RequestResize_others (cr : Nat → Vector2f) :
    ∀ (fuel : Nat) (s0 s s1 : World) (self : Nat) (t : List Event),
      SameLinks s0 s → RequestResize cr fuel s self = some (s1, t) →
      ∀ (x : Nat) (wx0 : Widget) (p : Nat), s0[x]? = some wx0 →
        lock s0 wx0.m_parent = some p →
        Event.HandleAbsolutePositionChange x ∉ t ∧
        (∀ r, Event.HandleAllocationChange x r ∉ t) ∧
        ∀ wx, s[x]? = some wx → ∃ wx1, s1[x]? = some wx1 ∧
          wx1.m_allocation = wx.m_allocation := by
  intro fuel
  induction fuel with
  | zero =>
    intro s0 s s1 self t _ h
    simp [RequestResize] at h
  | succ n ih =>
    intro s0 s s1 self t hl0 h x wx0 p hx0 hxp
    unfold RequestResize at h
    cases hw : s[self]? with
    | none => rw [hw] at h; simp at h
    | some w =>
      rw [hw] at h
      dsimp only at h
      have hl1 : SameLinks s (s.set self { w with
          m_requisition := combineRequisition (cr self) w.m_custom_requisition }) :=
        SameLinks.set hw rfl
      -- the allocation of `x` right after the requisition of `self` is written
      have hmid : ∀ wx, s[x]? = some wx → ∃ wm, (s.set self { w with
            m_requisition := combineRequisition (cr self) w.m_custom_requisition })[x]? =
              some wm ∧ wm.m_allocation = wx.m_allocation := by
        intro wx hwx
        by_cases hsx : self = x
        · subst hsx
          rw [hw] at hwx
          cases hwx
          exact ⟨_, getElem?_set_same hw, rfl⟩
        · exact ⟨wx, by rw [getElem?_set_other hsx, hwx], rfl⟩
      cases hl : lock s w.m_parent with
      | some parent =>
        rw [hl] at h
        dsimp only at h
        cases hr : RequestResize cr n (s.set self { w with
            m_requisition := combineRequisition (cr self) w.m_custom_requisition }) parent with
        | none => rw [hr] at h; simp at h
        | some r =>
          obtain ⟨s2, t2⟩ := r
          rw [hr] at h
          simp only [Option.some.injEq, Prod.mk.injEq] at h
          obtain ⟨h1, h2, h3⟩ := ih s0 _ _ _ _ (hl0.trans hl1) hr x wx0 p hx0 hxp
          rw [← h.1, ← h.2]
          refine ⟨?_, ?_, ?_⟩
          · intro hm
            simp only [List.mem_cons] at hm
            rcases hm with hm | hm
            · cases hm
            · exact h1 hm
          · intro r hm
            simp only [List.mem_cons] at hm
            rcases hm with hm | hm
            · cases hm
            · exact h2 r hm
          · intro wx hwx
            obtain ⟨wm, hwm, ham⟩ := hmid wx hwx
            obtain ⟨wx1, hwx1, ha1⟩ := h3 wm hwm
            exact ⟨wx1, hwx1, ha1.trans ham⟩
      | none =>
        rw [hl] at h
        dsimp only at h
        -- `self` is a root, `x` is not
        have hne : self ≠ x := by
          intro hsx
          subst hsx
          obtain ⟨w', hw', hp'⟩ := hl0.getElem? hx0
          rw [hw] at hw'
          cases hw'
          rw [← hl0.lock, ← hp', hl] at hxp
          cases hxp
        cases hr : SetAllocation (n + 1) (s.set self { w with
            m_requisition := combineRequisition (cr self) w.m_custom_requisition }) self
            ⟨w.m_allocation.Left, w.m_allocation.Top,
             max w.m_allocation.Width
               (combineRequisition (cr self) w.m_custom_requisition).x,
             max w.m_allocation.Height
               (combineRequisition (cr self) w.m_custom_requisition).y⟩ with
        | none => rw [hr] at h; simp at h
        | some r =>
          obtain ⟨s2, t2⟩ := r
          rw [hr] at h
          simp only [Option.some.injEq, Prod.mk.injEq] at h
          rw [← h.1, ← h.2]
          rcases SetAllocation_inv (getElem?_set_same hw) hr with
            ⟨_, hs, ht⟩ | ⟨_, d, _, hs, ht⟩
          · subst hs
            subst ht
            refine ⟨by simp, fun r => by simp, ?_⟩
            intro wx hwx
            exact hmid wx hwx
          · subst hs
            subst ht
            refine ⟨?_, ?_, ?_⟩
            · intro hm
              rcases List.mem_cons.1 hm with hm | hm
              · cases hm
              rw [List.mem_append] at hm
              rcases hm with hm | hm
              · simp at hm
                exact hne hm.symm
              · obtain ⟨p', hp'⟩ := invalidateTrace_mem hm
                cases hp'
            · intro r hm
              rcases List.mem_cons.1 hm with hm | hm
              · cases hm
              rw [List.mem_append] at hm
              rcases hm with hm | hm
              · simp at hm
                exact hne hm.1.symm
              · obtain ⟨p', hp'⟩ := invalidateTrace_mem hm
                cases hp'
            · intro wx hwx
              rw [set_set_same, getElem?_set_other hne]
              exact ⟨wx, hwx, rfl⟩

end sfg

namespace sfg

/-- What the resize pass of `Refresh` does to the widget it is called on:
either its allocation is unchanged and neither hook has fired for it, or its
allocation has changed, both hooks have fired once (the allocation-change
hook with the old rectangle) and the widget is invalidated. -/
theorem RequestResize_self_hooks (cr : Nat → Vector2f) {fuel : Nat} {s s1 : World}
    {self : Nat} {w w1 : Widget} {t1 : List Event} (hw : s[self]? = some w)
    (hr : RequestResize cr fuel s self = some (s1, t1)) (hw1 : s1[self]? = some w1) :
    (w1.m_allocation = w.m_allocation ∧
      t1.count (Event.HandleAbsolutePositionChange self) = 0 ∧
      allocationChangeCount self t1 = 0) ∨
    (w1.m_allocation ≠ w.m_allocation ∧
      t1.count (Event.HandleAbsolutePositionChange self) = 1 ∧
      allocationChangeCount self t1 = 1 ∧
      Event.HandleAllocationChange self w.m_allocation ∈ t1 ∧
      w1.m_invalidated = true) := by
  cases hl : lock s w.m_parent with
  | some p =>
    left
    obtain ⟨h1, h2, h3⟩ :=
      RequestResize_others cr fuel s s s1 self t1 (SameLinks.refl s) hr self w p hw hl
    obtain ⟨w1', hw1', ha⟩ := h3 w hw
    rw [hw1] at hw1'
    cases hw1'
    refine ⟨ha, List.count_eq_zero.2 h1, ?_⟩
    unfold allocationChangeCount
    rw [List.countP_eq_zero]
    intro e he
    cases e <;> simp
    rename_i i r
    intro hi
    subst hi
    exact h2 r he
  | none =>
    cases fuel with
    | zero => simp [RequestResize] at hr
    | succ n =>
      rw [RequestResize_root cr n hw hl] at hr
      cases hsa : SetAllocation (n + 1) (s.set self { w with
          m_requisition := combineRequisition (cr self) w.m_custom_requisition }) self
          ⟨w.m_allocation.Left, w.m_allocation.Top,
           max w.m_allocation.Width (combineRequisition (cr self) w.m_custom_requisition).x,
           max w.m_allocation.Height
             (combineRequisition (cr self) w.m_custom_requisition).y⟩ with
      | none => rw [hsa] at hr; simp at hr
      | some r =>
        obtain ⟨s2, t2⟩ := r
        rw [hsa] at hr
        simp only [Option.some.injEq, Prod.mk.injEq] at hr
        obtain ⟨hs, ht⟩ := hr
        subst hs
        subst ht
        rcases SetAllocation_inv (getElem?_set_same hw) hsa with
          ⟨_, hs, ht⟩ | ⟨hne, d, _, hs, ht⟩
        · left
          subst hs
          subst ht
          rw [getElem?_set_same hw] at hw1
          cases hw1
          refine ⟨rfl, by simp, by simp [allocationChangeCount]⟩
        · right
          subst hs
          subst ht
          rw [set_set_same, getElem?_set_same hw] at hw1
          cases hw1
          refine ⟨fun h => hne h.symm, ?_, ?_, by simp, rfl⟩
          · dsimp only
            rw [List.count_cons, List.count_append]
            cases w.m_invalidated
            · simp only [Bool.false_eq_true, if_false]
              split <;> simp
            · simp
          · unfold allocationChangeCount
            dsimp only
            rw [List.countP_cons, List.countP_append]
            cases w.m_invalidated
            · simp only [Bool.false_eq_true, if_false]
              split <;> simp
            · simp

/-- C19: on every widget with a finite parent chain `Refresh` returns and
leaves `invalidated == true`; its trace holds the absolute-position-change
hook of the widget exactly once and its allocation-change hook exactly once,
the latter with the rectangle the widget had before the call; and when the
resize pass has left the widget's allocation unchanged, these two
invocations are the ones `Refresh` itself makes right after the pass. -/
theorem Refresh_refires (cr : Nat → Vector2f) (fuel : Nat) (s : World) (self : Nat)
    (w : Widget) (c : List Nat) (hw : s[self]? = some w)
    (hc : ParentChain fuel s self = some c) :
    ∃ s3 t w3, Refresh cr fuel s self = some (s3, t) ∧ s3[self]? = some w3 ∧
      w3.m_invalidated = true ∧
      t.count (Event.HandleAbsolutePositionChange self) = 1 ∧
      allocationChangeCount self t = 1 ∧
      Event.HandleAllocationChange self w.m_allocation ∈ t ∧
      (∀ s1 t1 w1, RequestResize cr fuel s self = some (s1, t1) → s1[self]? = some w1 →
        w1.m_allocation = w.m_allocation →
        ∃ t3, t = t1 ++ [Event.HandleAbsolutePositionChange self,
          Event.HandleAllocationChange self w.m_allocation] ++ t3) := by
  obtain ⟨⟨s1, t1⟩, hr⟩ := RequestResize_some cr fuel s s self c hc (SameLinks.refl s)
  have hl1 := RequestResize_sameLinks cr fuel s s1 self t1 hr
  obtain ⟨w1, hw1, _⟩ := hl1.getElem? hw
  have hcond : (w.m_allocation.Left = w1.m_allocation.Left ∧
      w.m_allocation.Top = w1.m_allocation.Top ∧
      w.m_allocation.Width = w1.m_allocation.Width ∧
      w.m_allocation.Height = w1.m_allocation.Height) ↔ w1.m_allocation = w.m_allocation := by
    constructor
    · rintro ⟨h1, h2, h3, h4⟩
      cases hx : w.m_allocation
      cases hy : w1.m_allocation
      rw [hx, hy] at h1 h2 h3 h4
      simp only at h1 h2 h3 h4
      simp [h1, h2, h3, h4]
    · intro h
      rw [h]
      exact ⟨rfl, rfl, rfl, rfl⟩
  unfold Refresh
  rw [hw]
  dsimp only
  rw [hr]
  dsimp only
  rw [hw1]
  dsimp only
  rcases RequestResize_self_hooks cr hw hr hw1 with ⟨ha, c1, c2⟩ | ⟨hna, c1, c2, hm, hi⟩
  · rw [if_pos (hcond.2 ha)]
    obtain ⟨s2, hs2⟩ := UpdateDrawablePosition_some hc hl1
    obtain ⟨d, hd, _⟩ := UpdateDrawablePosition_inv hw1 hs2
    have hw2 : s2[self]? = some ({ w1 with m_drawable := d } : Widget) := by
      rw [hd]
      exact getElem?_set_same hw1
    rw [hs2]
    dsimp only
    rw [Invalidate_eq hw2]
    dsimp only
    refine ⟨_, _, _, rfl, getElem?_set_same hw2, rfl, ?_, ?_, by simp, ?_⟩
    · rw [List.count_append, List.count_append, c1]
      cases w1.m_invalidated
      · simp only [Bool.false_eq_true, if_false]
        split <;> simp
      · simp
    · unfold allocationChangeCount at c2 ⊢
      rw [List.countP_append, List.countP_append, c2]
      cases w1.m_invalidated
      · simp only [Bool.false_eq_true, if_false]
        split <;> simp
      · simp
    · intro s1' t1' w1' hr' _ _
      simp only [Option.some.injEq, Prod.mk.injEq] at hr'
      rw [← hr'.2]
      exact ⟨_, rfl⟩
  · rw [if_neg (fun h => hna (hcond.1 h))]
    dsimp only
    rw [Invalidate_eq hw1]
    dsimp only
    refine ⟨_, _, _, rfl, getElem?_set_same hw1, rfl, ?_, ?_, ?_, ?_⟩
    · rw [List.count_append, List.count_append, c1]
      cases w1.m_invalidated
      · simp only [Bool.false_eq_true, if_false]
        split <;> simp
      · simp
    · unfold allocationChangeCount at c2 ⊢
      rw [List.countP_append, List.countP_append, c2]
      cases w1.m_invalidated
      · simp only [Bool.false_eq_true, if_false]
        split <;> simp
      · simp
    · simp [hm]
    · intro s1' t1' w1' hr' hw1' ha'
      simp only [Option.some.injEq, Prod.mk.injEq] at hr'
      rw [← hr'.1, hw1] at hw1'
      cases hw1'
      exact absurd ha' hna

theorem Refresh_refires_witness :
    ∃ s3 t w3, Refresh (fun _ => ⟨10.4, 20⟩) 3 threeLevels 2 = some (s3, t) ∧
      s3[2]? = some w3 ∧ w3.m_invalidated = true ∧
      t.count (Event.HandleAbsolutePositionChange 2) = 1 ∧
      allocationChangeCount 2 t = 1 ∧
      Event.HandleAllocationChange 2
        ({ Widget.Widget with m_allocation := ⟨1, 2, 30, 10⟩, m_parent := some 1 } :
          Widget).m_allocation ∈ t ∧
      (∀ s1 t1 w1, RequestResize (fun _ => ⟨10.4, 20⟩) 3 threeLevels 2 = some (s1, t1) →
        s1[2]? = some w1 →
        w1.m_allocation =
          ({ Widget.Widget with m_allocation := ⟨1, 2, 30, 10⟩, m_parent := some 1 } :
            Widget).m_allocation →
        ∃ t3, t = t1 ++ [Event.HandleAbsolutePositionChange 2,
          Event.HandleAllocationChange 2
            ({ Widget.Widget with m_allocation := ⟨1, 2, 30, 10⟩, m_parent := some 1 } :
              Widget).m_allocation] ++ t3) :=
  Refresh_refires (fun _ => ⟨10.4, 20⟩) 3 threeLevels 2
    { Widget.Widget with m_allocation := ⟨1, 2, 30, 10⟩, m_parent := some 1 } [2, 1, 0] rfl
    threeLevels_chain

end sfg

namespace sfg

/-! ## State and focus under the hooks of the base class -/

theorem lock_set (s : World) (i : Nat) (w : Widget) (p : Option Nat) :
    lock (s.set i w) p = lock s p := by
  unfold lock
  simp

theorem SetState_same (hook : StateChangeHook) (fuel : Nat) {s : World} {self : Nat}
    {w : Widget} (hw : s[self]? = some w) :
    SetState hook (fuel + 1) s self w.m_state = some (s, []) := by
  unfold SetState
  rw [hw]
  simp

theorem HandleStateChange_default (fuel : Nat) {s : World} {self : Nat} {w : Widget}
    (hw : s[self]? = some w) (old_state : State) :
    HandleStateChange defaultHooks (fuel + 1) s self old_state =
      some (s.set self { w with m_invalidated := true },
        Event.HandleStateChange self old_state ::
          (if w.m_invalidated then []
           else match lock s w.m_parent with
             | some parent => [Event.HandleChildInvalidate parent self]
             | none => [])) := by
  unfold HandleStateChange
  simp only [defaultHooks]
  rw [Invalidate_eq hw]

/-- The part of `SetState` before the focus grab, under the hooks of the base
class. -/
theorem SetState_default_other (fuel : Nat) {s : World} {self : Nat} {w : Widget}
    (hw : s[self]? = some w) (state : State) (hs : state ≠ State.ACTIVE) :
    SetState defaultHooks (fuel + 2) s self state =
      some (s.set self (withState w state), stateChangeTrace s self w state) := by
  unfold SetState
  rw [hw]
  dsimp only
  by_cases h : w.m_state = state
  · rw [if_pos h]
    unfold withState stateChangeTrace
    rw [if_pos h, if_pos h, set_of_getElem? s self w hw]
  · rw [if_neg h]
    have hne : state ≠ w.m_state := fun e => h e.symm
    rw [if_pos hne, HandleStateChange_default fuel (getElem?_set_same hw)]
    dsimp only
    rw [if_neg hs, set_set_same, lock_set]
    unfold withState stateChangeTrace
    rw [if_neg h, if_neg h]
    cases w.m_invalidated <;> cases lock s w.m_parent <;> rfl

theorem SetState_default_active (fuel : Nat) {s : World} {self : Nat} {w : Widget}
    (hw : s[self]? = some w) (h : w.m_state ≠ State.ACTIVE) :
    SetState defaultHooks (fuel + 2) s self State.ACTIVE =
      match GrabFocus defaultHooks (fuel + 1) (s.set self (withState w State.ACTIVE))
          self self with
      | none => none
      | some (s3, t3) => some (s3, stateChangeTrace s self w State.ACTIVE ++ t3) := by
  conv_lhs => unfold SetState
  rw [hw]
  dsimp only
  rw [if_neg h]
  have hne : State.ACTIVE ≠ w.m_state := fun e => h e.symm
  rw [if_pos hne, HandleStateChange_default fuel (getElem?_set_same hw)]
  dsimp only
  rw [if_pos rfl, set_set_same, lock_set]
  unfold withState stateChangeTrace
  rw [if_neg h, if_neg h]
  cases w.m_invalidated <;> cases lock s w.m_parent <;> rfl

theorem HandleFocusChange_self (hook : StateChangeHook) (fuel : Nat) {s : World}
    {self : Nat} {w : Widget} (hw : s[self]? = some w) :
    HandleFocusChange hook (fuel + 1) s self self =
      some (s, [Event.HandleFocusChange self self]) := by
  unfold HandleFocusChange
  rw [hw]
  simp

theorem HandleFocusChange_other (fuel : Nat) {s : World} {self : Nat} {w : Widget}
    (hw : s[self]? = some w) (focused_widget : Nat) (hne : focused_widget ≠ self) :
    HandleFocusChange defaultHooks (fuel + 3) s self focused_widget =
      some (s.set self (withState w State.NORMAL),
        Event.HandleFocusChange self focused_widget ::
          stateChangeTrace s self w State.NORMAL) := by
  unfold HandleFocusChange
  rw [hw]
  dsimp only
  rw [if_pos hne, SetState_default_other fuel hw State.NORMAL (by decide)]

end sfg

namespace sfg

theorem withState_state (w : Widget) (state : State) : (withState w state).m_state = state := by
  unfold withState
  split
  · assumption
  · rfl

theorem withState_focus (w : Widget) (state : State) :
    (withState w state).m_focus_widget = w.m_focus_widget := by
  unfold withState
  split <;> rfl

theorem withState_parent (w : Widget) (state : State) :
    (withState w state).m_parent = w.m_parent := by
  unfold withState
  split <;> rfl

/-- Writing a changed state into the store touches the state of that widget
only, and no focus reference or parent link. -/
theorem withState_pointwise {s : World} {i : Nat} {w : Widget} (hw : s[i]? = some w)
    (state : State) :
    SameLinks s (s.set i (withState w state)) ∧
    ∀ (j : Nat) (wj : Widget), s[j]? = some wj →
      ∃ wj1, (s.set i (withState w state))[j]? = some wj1 ∧
        wj1.m_focus_widget = wj.m_focus_widget ∧
        wj1.m_state = (if j = i then state else wj.m_state) := by
  refine ⟨SameLinks.set hw (withState_parent w state), ?_⟩
  intro j wj hj
  by_cases hij : j = i
  · subst hij
    rw [hw] at hj
    cases hj
    exact ⟨_, getElem?_set_same hw, withState_focus _ _, by simp [withState_state]⟩
  · refine ⟨wj, ?_, rfl, by simp [hij]⟩
    rw [getElem?_set_other (fun e => hij e.symm), hj]

/-- Writing the focus reference of the root touches that reference only. -/
theorem setFocus_pointwise {s : World} {r : Nat} {wr : Widget} (hr : s[r]? = some wr)
    (widget : Nat) :
    SameLinks s (s.set r { wr with m_focus_widget := some widget }) ∧
    ∀ (j : Nat) (wj : Widget), s[j]? = some wj →
      ∃ wj1, (s.set r { wr with m_focus_widget := some widget })[j]? = some wj1 ∧
        wj1.m_focus_widget = (if j = r then some widget else wj.m_focus_widget) ∧
        wj1.m_state = wj.m_state := by
  refine ⟨SameLinks.set hr rfl, ?_⟩
  intro j wj hj
  by_cases hjr : j = r
  · subst hjr
    rw [hr] at hj
    cases hj
    exact ⟨_, getElem?_set_same hr, by simp, rfl⟩
  · refine ⟨wj, ?_, by simp [hjr], rfl⟩
    rw [getElem?_set_other (fun e => hjr e.symm), hj]

/-- The focus grab at the root, under the hooks of the base class: it
returns; the focus reference of the root becomes `widget`; the widget that
held the focus, if it is another one, is set to NORMAL; no other state and no
other focus reference changes; and the trace is the lost-focus signal and the
focus-change hook of the old holder (with its change of state), then the
gain-focus signal and the focus-change hook of `widget`. -/
theorem GrabFocus_root (n : Nat) {s : World} {r widget : Nat} {wr ww : Widget}
    (hr : s[r]? = some wr) (hroot : lock s wr.m_parent = none)
    (hwid : s[widget]? = some ww)
    (hold : ∀ old, wr.m_focus_widget = some old → old < s.length) :
    ∃ s3 t, GrabFocus defaultHooks (n + 4) s r widget = some (s3, t) ∧
      SameLinks s s3 ∧
      (∀ (j : Nat) (wj : Widget), s[j]? = some wj →
        ∃ wj3, s3[j]? = some wj3 ∧
          wj3.m_focus_widget = (if j = r then some widget else wj.m_focus_widget) ∧
          wj3.m_state =
            (if wr.m_focus_widget = some j ∧ j ≠ widget then State.NORMAL
             else wj.m_state)) ∧
      (wr.m_focus_widget = none →
        t = [Event.OnGainFocus widget, Event.HandleFocusChange widget widget]) ∧
      (∀ old wo, wr.m_focus_widget = some old → s[old]? = some wo →
        t = Event.OnLostFocus old :: Event.HandleFocusChange old widget ::
          ((if widget ≠ old then stateChangeTrace s old wo State.NORMAL else []) ++
            [Event.OnGainFocus widget, Event.HandleFocusChange widget widget])) := by
  unfold GrabFocus
  rw [hr]
  dsimp only
  rw [hroot]
  dsimp only
  obtain ⟨fo, hfo⟩ : ∃ fo, wr.m_focus_widget = fo := ⟨_, rfl⟩
  rw [hfo] at hold ⊢
  -- the last two steps, from any intermediate store
  have hlast : ∀ (s1 : World) (t1 : List Event), SameLinks s s1 →
      (∀ (j : Nat) (wj : Widget), s[j]? = some wj →
        ∃ wj1, s1[j]? = some wj1 ∧ wj1.m_focus_widget = wj.m_focus_widget ∧
          wj1.m_state =
            (if fo = some j ∧ j ≠ widget then State.NORMAL else wj.m_state)) →
      ∃ s3 t,
        (match s1[r]? with
          | none => none
          | some w1 =>
            match HandleFocusChange defaultHooks (n + 3)
                (s1.set r { w1 with m_focus_widget := some widget }) widget widget with
            | none => none
            | some (s3, t3) => some (s3, t1 ++ Event.OnGainFocus widget :: t3)) =
          some (s3, t) ∧
        SameLinks s s3 ∧
        (∀ (j : Nat) (wj : Widget), s[j]? = some wj →
          ∃ wj3, s3[j]? = some wj3 ∧
            wj3.m_focus_widget = (if j = r then some widget else wj.m_focus_widget) ∧
            wj3.m_state =
              (if fo = some j ∧ j ≠ widget then State.NORMAL else wj.m_state)) ∧
        t = t1 ++ [Event.OnGainFocus widget, Event.HandleFocusChange widget widget] := by
    intro s1 t1 hl1 hp1
    obtain ⟨w1, hw1, _, _⟩ := hp1 r wr hr
    obtain ⟨ww1, hww1, _, _⟩ := hp1 widget ww hwid
    obtain ⟨hl2, hp2⟩ := setFocus_pointwise hw1 widget
    obtain ⟨ww2, hww2, _, _⟩ := hp2 widget ww1 hww1
    rw [hw1]
    dsimp only
    rw [HandleFocusChange_self defaultHooks (n + 2) hww2]
    refine ⟨_, _, rfl, hl1.trans hl2, ?_, rfl⟩
    intro j wj hj
    obtain ⟨wj1, hwj1, hf1, hs1⟩ := hp1 j wj hj
    obtain ⟨wj2, hwj2, hf2, hs2⟩ := hp2 j wj1 hwj1
    exact ⟨wj2, hwj2, by rw [hf2, hf1], by rw [hs2, hs1]⟩
  cases fo with
  | none =>
    dsimp only
    obtain ⟨s3, t, h3, hl3, hp3, ht⟩ := hlast s [] (SameLinks.refl s) (by
      intro j wj hj
      exact ⟨wj, hj, rfl, by simp⟩)
    refine ⟨s3, t, h3, hl3, hp3, fun _ => by simpa using ht, ?_⟩
    intro old wo ho
    cases ho
  | some old =>
    dsimp only
    have holdlt := hold old rfl
    obtain ⟨wo, hwo⟩ : ∃ wo, s[old]? = some wo :=
      ⟨s[old], List.getElem?_eq_getElem holdlt⟩
    by_cases hne : widget = old
    · subst hne
      rw [HandleFocusChange_self defaultHooks (n + 2) hwo]
      dsimp only
      obtain ⟨s3, t, h3, hl3, hp3, ht⟩ := hlast s
        [Event.OnLostFocus widget, Event.HandleFocusChange widget widget]
        (SameLinks.refl s) (by
          intro j wj hj
          refine ⟨wj, hj, rfl, ?_⟩
          rw [if_neg]
          rintro ⟨h1, h2⟩
          cases h1
          exact h2 rfl)
      refine ⟨s3, t, h3, hl3, hp3, (fun hno => by cases hno), ?_⟩
      intro old' wo' ho' _
      cases ho'
      simpa using ht
    · rw [HandleFocusChange_other n hwo widget hne]
      dsimp only
      obtain ⟨hlw, hpw⟩ := withState_pointwise hwo State.NORMAL
      obtain ⟨s3, t, h3, hl3, hp3, ht⟩ := hlast (s.set old (withState wo State.NORMAL))
        (Event.OnLostFocus old :: Event.HandleFocusChange old widget ::
          stateChangeTrace s old wo State.NORMAL) hlw (by
          intro j wj hj
          obtain ⟨wj1, hwj1, hf1, hs1⟩ := hpw j wj hj
          refine ⟨wj1, hwj1, hf1, ?_⟩
          rw [hs1]
          by_cases hjo : j = old
          · subst hjo
            have hjw : j ≠ widget := fun e => hne e.symm
            simp [hjw]
          · have hn : ¬ (some old = some j ∧ j ≠ widget) := by
              rintro ⟨h1, _⟩
              cases h1
              exact hjo rfl
            rw [if_neg hjo, if_neg hn])
      refine ⟨s3, t, h3, hl3, hp3, (fun hno => by cases hno), ?_⟩
      intro old' wo' ho' hwo'
      cases ho'
      rw [hwo] at hwo'
      cases hwo'
      rw [ht, if_pos hne]
      rfl

end sfg

namespace sfg

/-! ## Climbing to the root -/

theorem RootOf_getElem? {k : Nat} {s : World} {self r : Nat} (h : RootOf k s self = some r) :
    ∃ w, s[self]? = some w := by
  cases k with
  | zero => simp [RootOf] at h
  | succ n =>
    unfold RootOf at h
    cases hw : s[self]? with
    | none => rw [hw] at h; simp at h
    | some w => exact ⟨w, rfl⟩

theorem RootOf_root : ∀ (k : Nat) (s : World) (self r : Nat), RootOf k s self = some r →
    ∃ wr, s[r]? = some wr ∧ lock s wr.m_parent = none := by
  intro k
  induction k with
  | zero =>
    intro s self r h
    simp [RootOf] at h
  | succ n ih =>
    intro s self r h
    unfold RootOf at h
    cases hw : s[self]? with
    | none => rw [hw] at h; simp at h
    | some w =>
      rw [hw] at h
      dsimp only at h
      cases hl : lock s w.m_parent with
      | none =>
        rw [hl] at h
        simp only [Option.some.injEq] at h
        subst h
        exact ⟨w, hw, hl⟩
      | some p =>
        rw [hl] at h
        exact ih s p r h

theorem RootOf_sameLinks {s s' : World} (h : SameLinks s s') :
    ∀ (k self : Nat), RootOf k s' self = RootOf k s self := by
  intro k
  induction k with
  | zero => intro self; rfl
  | succ n ih =>
    intro self
    unfold RootOf
    cases hw : s[self]? with
    | none =>
      have := h.2 self
      rw [hw] at this
      cases hs : s'[self]? with
      | none => rfl
      | some w' => rw [hs] at this; simp at this
    | some w =>
      obtain ⟨w', hw', hp⟩ := h.getElem? hw
      have hlk : lock s' w'.m_parent = lock s w.m_parent := by
        rw [h.lock, hp]
      rw [hw']
      dsimp only
      rw [hlk]
      cases lock s w.m_parent with
      | none => rfl
      | some p => exact ih p

theorem RootOf_mono : ∀ (k : Nat) (s : World) (self r : Nat), RootOf k s self = some r →
    RootOf (k + 1) s self = some r := by
  intro k
  induction k with
  | zero =>
    intro s self r h
    simp [RootOf] at h
  | succ n ih =>
    intro s self r h
    unfold RootOf at h ⊢
    cases hw : s[self]? with
    | none => rw [hw] at h; simp at h
    | some w =>
      rw [hw] at h
      dsimp only at h ⊢
      cases hl : lock s w.m_parent with
      | none =>
        rw [hl] at h
        exact h
      | some p =>
        rw [hl] at h
        dsimp only at h ⊢
        exact ih s p r h

theorem HasFocus_eq : ∀ (k : Nat) (s : World) (self r : Nat) (wr : Widget) (widget : Nat),
    RootOf k s self = some r → s[r]? = some wr →
    HasFocus k s self widget = some (decide (wr.m_focus_widget = some widget)) := by
  intro k
  induction k with
  | zero =>
    intro s self r wr widget h
    simp [RootOf] at h
  | succ n ih =>
    intro s self r wr widget h hr
    unfold RootOf at h
    unfold HasFocus
    cases hw : s[self]? with
    | none => rw [hw] at h; simp at h
    | some w =>
      rw [hw] at h
      dsimp only at h ⊢
      cases hl : lock s w.m_parent with
      | none =>
        rw [hl] at h
        simp only [Option.some.injEq] at h
        subst h
        rw [hw] at hr
        cases hr
        rfl
      | some p =>
        rw [hl] at h
        exact ih s p r wr widget h hr

/-- The focus grab started at any widget below the root `r`, under the
hooks of the base class; see `GrabFocus_root`. -/
theorem GrabFocus_spec : ∀ (k : Nat) (s : World) (self r widget : Nat) (wr ww : Widget),
    RootOf k s self = some r → s[r]? = some wr → s[widget]? = some ww →
    (∀ old, wr.m_focus_widget = some old → old < s.length) →
    ∃ s3 t, GrabFocus defaultHooks (k + 3) s self widget = some (s3, t) ∧
      SameLinks s s3 ∧
      (∀ (j : Nat) (wj : Widget), s[j]? = some wj →
        ∃ wj3, s3[j]? = some wj3 ∧
          wj3.m_focus_widget = (if j = r then some widget else wj.m_focus_widget) ∧
          wj3.m_state =
            (if wr.m_focus_widget = some j ∧ j ≠ widget then State.NORMAL
             else wj.m_state)) ∧
      (wr.m_focus_widget = none →
        t = [Event.OnGainFocus widget, Event.HandleFocusChange widget widget]) ∧
      (∀ old wo, wr.m_focus_widget = some old → s[old]? = some wo →
        t = Event.OnLostFocus old :: Event.HandleFocusChange old widget ::
          ((if widget ≠ old then stateChangeTrace s old wo State.NORMAL else []) ++
            [Event.OnGainFocus widget, Event.HandleFocusChange widget widget])) := by
  intro k
  induction k with
  | zero =>
    intro s self r widget wr ww h
    simp [RootOf] at h
  | succ n ih =>
    intro s self r widget wr ww h hr hwid hold
    unfold RootOf at h
    cases hw : s[self]? with
    | none => rw [hw] at h; simp at h
    | some w =>
      rw [hw] at h
      dsimp only at h
      cases hl : lock s w.m_parent with
      | none =>
        rw [hl] at h
        simp only [Option.some.injEq] at h
        subst h
        rw [hw] at hr
        cases hr
        exact GrabFocus_root n hw hl hwid hold
      | some p =>
        rw [hl] at h
        obtain ⟨s3, t, h3, rest⟩ := ih s p r widget wr ww h hr hwid hold
        refine ⟨s3, t, ?_, rest⟩
        rw [← h3]
        conv_lhs => unfold GrabFocus
        rw [hw]
        dsimp only
        rw [hl]

/-- C11: for two distinct widgets A and B below the same root, under the
hooks of the base class, `GrabFocus(A)` and then `GrabFocus(B)` both return;
afterwards A's state is NORMAL, `HasFocus(B)` is true and `HasFocus(A)` is
false; and the trace of the second call starts with A's lost-focus signal
and A's focus-change hook (with A's change of state, if any) and ends with
B's gain-focus signal and B's focus-change hook. -/
theorem GrabFocus_exclusive (fuel : Nat) (s : World) (A B r : Nat) (wr : Widget)
    (hA : RootOf fuel s A = some r) (hB : RootOf fuel s B = some r) (hne : A ≠ B)
    (hr : s[r]? = some wr)
    (hold : ∀ old, wr.m_focus_widget = some old → old < s.length) :
    ∃ s1 t1 s2 t2 wA1 wA2,
      GrabFocus defaultHooks (fuel + 3) s A A = some (s1, t1) ∧
      GrabFocus defaultHooks (fuel + 3) s1 B B = some (s2, t2) ∧
      s1[A]? = some wA1 ∧ s2[A]? = some wA2 ∧
      wA2.m_state = State.NORMAL ∧
      HasFocus fuel s2 B B = some true ∧
      HasFocus fuel s2 A A = some false ∧
      t2 = Event.OnLostFocus A :: Event.HandleFocusChange A B ::
        (stateChangeTrace s1 A wA1 State.NORMAL ++
          [Event.OnGainFocus B, Event.HandleFocusChange B B]) := by
  obtain ⟨wA, hwA⟩ := RootOf_getElem? hA
  obtain ⟨wB, hwB⟩ := RootOf_getElem? hB
  obtain ⟨s1, t1, h1, hl1, hp1, _, _⟩ := GrabFocus_spec fuel s A r A wr wA hA hr hwA hold
  obtain ⟨wr1, hwr1, hfr1, _⟩ := hp1 r wr hr
  rw [if_pos rfl] at hfr1
  obtain ⟨wA1, hwA1, _, _⟩ := hp1 A wA hwA
  obtain ⟨wB1, hwB1, _, _⟩ := hp1 B wB hwB
  have hA1 : RootOf fuel s1 A = some r := by rw [RootOf_sameLinks hl1]; exact hA
  have hB1 : RootOf fuel s1 B = some r := by rw [RootOf_sameLinks hl1]; exact hB
  have hold1 : ∀ old, wr1.m_focus_widget = some old → old < s1.length := by
    intro old ho
    rw [hfr1] at ho
    cases ho
    exact lt_of_getElem? hwA1
  obtain ⟨s2, t2, h2, hl2, hp2, _, ht2⟩ :=
    GrabFocus_spec fuel s1 B r B wr1 wB1 hB1 hwr1 hwB1 hold1
  obtain ⟨wr2, hwr2, hfr2, _⟩ := hp2 r wr1 hwr1
  rw [if_pos rfl] at hfr2
  obtain ⟨wA2, hwA2, _, hsA2⟩ := hp2 A wA1 hwA1
  rw [if_pos ⟨hfr1, hne⟩] at hsA2
  have hA2 : RootOf fuel s2 A = some r := by rw [RootOf_sameLinks hl2]; exact hA1
  have hB2 : RootOf fuel s2 B = some r := by rw [RootOf_sameLinks hl2]; exact hB1
  refine ⟨s1, t1, s2, t2, wA1, wA2, h1, h2, hwA1, hwA2, hsA2, ?_, ?_, ?_⟩
  · rw [HasFocus_eq fuel s2 B r wr2 B hB2 hwr2, hfr2]
    simp
  · rw [HasFocus_eq fuel s2 A r wr2 A hA2 hwr2, hfr2]
    simp [hne.symm]
  · rw [ht2 A wA1 hfr1 hwA1, if_pos hne.symm]

end sfg

namespace sfg

theorem GrabFocus_exclusive_witness :
    ∃ s1 t1 s2 t2 wA1 wA2,
      GrabFocus defaultHooks (2 + 3) twoChildren 1 1 = some (s1, t1) ∧
      GrabFocus defaultHooks (2 + 3) s1 2 2 = some (s2, t2) ∧
      s1[1]? = some wA1 ∧ s2[1]? = some wA2 ∧
      wA2.m_state = State.NORMAL ∧
      HasFocus 2 s2 2 2 = some true ∧
      HasFocus 2 s2 1 1 = some false ∧
      t2 = Event.OnLostFocus 1 :: Event.HandleFocusChange 1 2 ::
        (stateChangeTrace s1 1 wA1 State.NORMAL ++
          [Event.OnGainFocus 2, Event.HandleFocusChange 2 2]) :=
  GrabFocus_exclusive 2 twoChildren 1 2 0 Widget.Widget (by decide) (by decide) (by decide)
    rfl (by intro old h; cases h)

end sfg

namespace sfg

/-! ## C18 -/

/-- For every body of the hook: when `SetState` changes the state to one
other than ACTIVE and the hook returns, the state-change signal is emitted
after the hook, whatever the hook has done to the state. -/
theorem SetState_notifies_after_hook (hook : StateChangeHook) (fuel : Nat) {s s2 : World}
    {self : Nat} {w : Widget} {t : List Event} (hw : s[self]? = some w) (state : State)
    (hne : w.m_state ≠ state) (hs : state ≠ State.ACTIVE)
    (hh : HandleStateChange hook fuel (s.set self { w with m_state := state }) self
      w.m_state = some (s2, t)) :
    SetState hook (fuel + 1) s self state = some (s2, t ++ [Event.OnStateChange self]) := by
  unfold SetState
  rw [hw]
  dsimp only
  rw [if_neg hne, if_pos (fun e => hne e.symm), hh]
  dsimp only
  rw [if_neg hs]

/-- C18 (the code at the failing input): a fresh widget of a subclass whose
`HandleStateChange` override calls `SetState( PRELIGHT )` is sent
`SetState( ACTIVE )`. The override changes the state again, to PRELIGHT, and
the inner call emits its state-change signal; the outer call then emits the
state-change signal once more, so the signal is in the trace twice. -/
theorem SetState_reentrant_duplicate :
    SetState (fun _ => some State.PRELIGHT) 5 [Widget.Widget] 0 State.ACTIVE =
      some ([{ Widget.Widget with m_state := State.PRELIGHT, m_focus_widget := some 0 }],
        [Event.HandleStateChange 0 State.NORMAL, Event.HandleStateChange 0 State.ACTIVE,
         Event.OnStateChange 0, Event.OnStateChange 0,
         Event.OnGainFocus 0, Event.HandleFocusChange 0 0]) ∧
    List.count (Event.OnStateChange 0)
      [Event.HandleStateChange 0 State.NORMAL, Event.HandleStateChange 0 State.ACTIVE,
       Event.OnStateChange 0, Event.OnStateChange 0,
       Event.OnGainFocus 0, Event.HandleFocusChange 0 0] = 2 := by
  constructor
  · decide
  · decide

end sfg

namespace sfg

/-! ## C20 -/

theorem getElem?_of_lt {s : World} {i : Nat} (h : i < s.length) : ∃ w, s[i]? = some w :=
  ⟨s[i], List.getElem?_eq_getElem h⟩

/-- A store reached from a focus tree by a step that keeps the parent links,
leaves the focus reference of the root at `newfocus`, and leaves no widget
ACTIVE but the one `newfocus` names, is a focus tree again. -/
theorem FocusTree_of_pointwise {fuel : Nat} {s s' : World} {root : Nat}
    (hg : FocusTree fuel s root) (hl : SameLinks s s') (newfocus : Option Nat)
    (hp : ∀ (j : Nat) (wj : Widget), s[j]? = some wj →
      ∃ wj', s'[j]? = some wj' ∧ (j = root → wj'.m_focus_widget = newfocus) ∧
        (wj'.m_state = State.ACTIVE → newfocus = some j))
    (hvalid : ∀ old, newfocus = some old → old < s.length) :
    FocusTree fuel s' root := by
  obtain ⟨htree, wr, hr, _, _⟩ := hg
  refine ⟨?_, ?_⟩
  · intro i hi
    rw [RootOf_sameLinks hl]
    exact htree i (by rw [← hl.1]; exact hi)
  · obtain ⟨wr', hr', hf', _⟩ := hp root wr hr
    refine ⟨wr', hr', ?_, ?_⟩
    · intro old ho
      rw [hf' rfl] at ho
      rw [hl.1]
      exact hvalid old ho
    · intro i wi' hi' ha
      have hlt : i < s.length := by
        rw [← hl.1]
        exact lt_of_getElem? hi'
      obtain ⟨wi, hi⟩ := getElem?_of_lt hlt
      obtain ⟨wi'', hi'', _, hact⟩ := hp i wi hi
      rw [hi'] at hi''
      cases hi''
      rw [hf' rfl]
      exact hact ha

/-- A focus grab keeps a focus tree. -/
theorem GrabFocus_step {fuel : Nat} {s : World} {root : Nat} (hg : FocusTree fuel s root)
    {self widget : Nat} (hself : self < s.length) (hwid : widget < s.length) :
    ∃ s' t, GrabFocus defaultHooks (fuel + 4) s self widget = some (s', t) ∧
      FocusTree fuel s' root ∧ s'.length = s.length := by
  have hg' := hg
  obtain ⟨htree, wr, hr, hold, hact⟩ := hg'
  obtain ⟨ww, hww⟩ := getElem?_of_lt hwid
  obtain ⟨s3, t, h3, hl3, hp3, _, _⟩ := GrabFocus_spec (fuel + 1) s self root widget wr ww
    (RootOf_mono fuel s self root (htree self hself)) hr hww hold
  refine ⟨s3, t, h3, ?_, hl3.1⟩
  apply FocusTree_of_pointwise hg hl3 (some widget)
  · intro j wj hj
    obtain ⟨wj3, hwj3, hf3, hs3⟩ := hp3 j wj hj
    refine ⟨wj3, hwj3, ?_, ?_⟩
    · intro hjr
      rw [hf3, if_pos hjr]
    · intro ha
      rw [hs3] at ha
      by_cases hcond : wr.m_focus_widget = some j ∧ j ≠ widget
      · rw [if_pos hcond] at ha
        cases ha
      · rw [if_neg hcond] at ha
        have hfj := hact j wj hj ha
        by_cases hjw : j = widget
        · rw [hjw]
        · exact absurd ⟨hfj, hjw⟩ hcond
  · intro old ho
    cases ho
    exact hwid

/-- A change of state to one other than ACTIVE keeps a focus tree. -/
theorem SetState_other_step {fuel : Nat} {s : World} {root : Nat}
    (hg : FocusTree fuel s root) {self : Nat} (hself : self < s.length) (state : State)
    (hs : state ≠ State.ACTIVE) :
    ∃ s' t, SetState defaultHooks (fuel + 4) s self state = some (s', t) ∧
      FocusTree fuel s' root ∧ s'.length = s.length := by
  have hg' := hg
  obtain ⟨_, wr, hr, hold, hact⟩ := hg'
  obtain ⟨w, hw⟩ := getElem?_of_lt hself
  obtain ⟨hl, hp⟩ := withState_pointwise hw state
  refine ⟨_, _, SetState_default_other (fuel + 2) hw state hs, ?_, hl.1⟩
  apply FocusTree_of_pointwise hg hl wr.m_focus_widget
  · intro j wj hj
    obtain ⟨wj1, hwj1, hf1, hs1⟩ := hp j wj hj
    refine ⟨wj1, hwj1, ?_, ?_⟩
    · intro hjr
      subst hjr
      rw [hr] at hj
      cases hj
      exact hf1
    · intro ha
      rw [hs1] at ha
      by_cases hjs : j = self
      · rw [if_pos hjs] at ha
        exact absurd ha hs
      · rw [if_neg hjs] at ha
        exact hact j wj hj ha
  · exact hold

/-- Setting a widget ACTIVE keeps a focus tree, leaves that widget ACTIVE,
and leaves every other widget that was ACTIVE in state NORMAL. -/
theorem SetState_active_step {fuel : Nat} {s : World} {root : Nat}
    (hg : FocusTree fuel s root) {W : Nat} (hW : W < s.length) :
    ∃ s' t wW, SetState defaultHooks (fuel + 4) s W State.ACTIVE = some (s', t) ∧
      FocusTree fuel s' root ∧ s'.length = s.length ∧
      s'[W]? = some wW ∧ wW.m_state = State.ACTIVE ∧
      (∀ (V : Nat) (wV wV' : Widget), V ≠ W → s[V]? = some wV →
        wV.m_state = State.ACTIVE → s'[V]? = some wV' → wV'.m_state = State.NORMAL) := by
  have hg' := hg
  obtain ⟨htree, wr, hr, hold, hact⟩ := hg'
  obtain ⟨w, hw⟩ := getElem?_of_lt hW
  by_cases ha : w.m_state = State.ACTIVE
  · refine ⟨s, [], w, ?_, hg, rfl, hw, ha, ?_⟩
    · have := SetState_same defaultHooks (fuel + 3) hw
      rw [ha] at this
      exact this
    · intro V wV wV' hVW hV hVa _
      have h1 := hact V wV hV hVa
      have h2 := hact W w hw ha
      rw [h1] at h2
      cases h2
      exact absurd rfl hVW
  · obtain ⟨hl2, hp2⟩ := withState_pointwise hw State.ACTIVE
    obtain ⟨wr2, hr2, hfr2, _⟩ := hp2 root wr hr
    obtain ⟨w2, hw2, _, hsw2⟩ := hp2 W w hw
    rw [if_pos rfl] at hsw2
    have hroot2 : RootOf fuel (s.set W (withState w State.ACTIVE)) W = some root := by
      rw [RootOf_sameLinks hl2]
      exact htree W hW
    have hold2 : ∀ old, wr2.m_focus_widget = some old →
        old < (s.set W (withState w State.ACTIVE)).length := by
      intro old ho
      rw [hfr2] at ho
      rw [hl2.1]
      exact hold old ho
    obtain ⟨s3, t3, h3, hl3, hp3, _, _⟩ := GrabFocus_spec fuel _ W root W wr2 w2
      hroot2 hr2 hw2 hold2
    have h3' : GrabFocus defaultHooks (fuel + 2 + 1) (s.set W (withState w State.ACTIVE))
        W W = some (s3, t3) := h3
    obtain ⟨wW3, hwW3, _, hsW3⟩ := hp3 W w2 hw2
    have hsW3' : wW3.m_state = State.ACTIVE := by
      rw [hsW3, if_neg (fun h => h.2 rfl)]
      exact hsw2
    refine ⟨s3, stateChangeTrace s W w State.ACTIVE ++ t3, wW3, ?_, ?_, ?_, hwW3, hsW3', ?_⟩
    · rw [SetState_default_active (fuel + 2) hw ha, h3']
    · apply FocusTree_of_pointwise hg (hl2.trans hl3) (some W)
      · intro j wj hj
        obtain ⟨wj2, hwj2, hf2, hs2⟩ := hp2 j wj hj
        obtain ⟨wj3, hwj3, hf3, hs3⟩ := hp3 j wj2 hwj2
        refine ⟨wj3, hwj3, ?_, ?_⟩
        · intro hjr
          rw [hf3, if_pos hjr]
        · intro hact3
          by_cases hjW : j = W
          · rw [hjW]
          · exfalso
            rw [hs3] at hact3
            by_cases hcond : wr2.m_focus_widget = some j ∧ j ≠ W
            · rw [if_pos hcond] at hact3
              cases hact3
            · rw [if_neg hcond, hs2, if_neg hjW] at hact3
              have hfj := hact j wj hj hact3
              rw [← hfr2] at hfj
              exact hcond ⟨hfj, hjW⟩
      · intro old ho
        cases ho
        exact hW
    · rw [hl3.1, hl2.1]
    · intro V wV wV' hVW hV hVa hV'
      obtain ⟨wV2, hwV2, _, hsV2⟩ := hp2 V wV hV
      obtain ⟨wV3, hwV3, _, hsV3⟩ := hp3 V wV2 hwV2
      rw [hV'] at hwV3
      cases hwV3
      have hfV := hact V wV hV hVa
      rw [← hfr2] at hfV
      rw [hsV3, if_pos ⟨hfV, hVW⟩]

theorem runCall_step {fuel : Nat} {s : World} {root : Nat} (hg : FocusTree fuel s root)
    (call : Call) (hc : call.inTree s.length) :
    ∃ s' t, runCall (fuel + 4) s call = some (s', t) ∧
      FocusTree fuel s' root ∧ s'.length = s.length := by
  cases call with
  | SetState self state =>
    by_cases hs : state = State.ACTIVE
    · subst hs
      obtain ⟨s', t, _, h, hg', hlen, _⟩ := SetState_active_step hg hc
      exact ⟨s', t, h, hg', hlen⟩
    · exact SetState_other_step hg hc state hs
  | GrabFocus self widget => exact GrabFocus_step hg hc.1 hc.2

theorem runCalls_steps {fuel : Nat} {root : Nat} :
    ∀ (calls : List Call) (s : World), FocusTree fuel s root →
      (∀ c ∈ calls, c.inTree s.length) →
      ∃ s' t, runCalls (fuel + 4) calls s = some (s', t) ∧
        FocusTree fuel s' root ∧ s'.length = s.length := by
  intro calls
  induction calls with
  | nil =>
    intro s hg _
    exact ⟨s, [], rfl, hg, rfl⟩
  | cons call rest ih =>
    intro s hg hc
    obtain ⟨s1, t1, h1, hg1, hlen1⟩ := runCall_step hg call (hc call (List.mem_cons_self _ _))
    obtain ⟨s2, t2, h2, hg2, hlen2⟩ := ih s1 hg1 (by
      intro c hcm
      rw [hlen1]
      exact hc c (List.mem_cons_of_mem _ hcm))
    refine ⟨s2, t1 ++ t2, ?_, hg2, hlen2.trans hlen1⟩
    unfold runCalls
    rw [h1]
    dsimp only
    rw [h2]

theorem FocusTree.invariant {fuel : Nat} {s : World} {root : Nat}
    (hg : FocusTree fuel s root) :
    FocusInvariant s root ∧
    ∀ (i : Nat) (wi : Widget), s[i]? = some wi → wi.m_state = State.ACTIVE →
      HasFocus fuel s i i = some true := by
  obtain ⟨htree, wr, hr, _, hact⟩ := hg
  refine ⟨⟨?_, ?_⟩, ?_⟩
  · intro i j wi wj hi hj hai haj
    have h1 := hact i wi hi hai
    have h2 := hact j wj hj haj
    rw [h1] at h2
    cases h2
    rfl
  · intro i wi hi hai
    exact ⟨wr, hr, hact i wi hi hai⟩
  · intro i wi hi hai
    rw [HasFocus_eq fuel s i root wr i (htree i (lt_of_getElem? hi)) hr, hact i wi hi hai]
    simp

/-- C20: in a tree under `root` that starts with every widget NORMAL and no
focus, every sequence of `SetState` and `GrabFocus` calls on widgets of the
tree, under the hooks of the base class, returns and leaves a store in which
at most one widget is ACTIVE and every ACTIVE widget is the root's focused
widget, so that `HasFocus` holds of it; and a further `SetState(ACTIVE)` on
any widget W returns with W ACTIVE, `HasFocus(W)` true, and every other
widget that was ACTIVE back in state NORMAL. -/
theorem focus_invariant (fuel : Nat) (s0 : World) (root : Nat) (calls : List Call)
    (htree : ∀ i : Nat, i < s0.length → RootOf fuel s0 i = some root)
    (hroot : root < s0.length)
    (hinit : ∀ (i : Nat) (w : Widget), s0[i]? = some w →
      w.m_state = State.NORMAL ∧ w.m_focus_widget = none)
    (hcalls : ∀ c ∈ calls, c.inTree s0.length) :
    ∃ s1 t, runCalls (fuel + 4) calls s0 = some (s1, t) ∧
      FocusInvariant s1 root ∧
      (∀ (i : Nat) (wi : Widget), s1[i]? = some wi → wi.m_state = State.ACTIVE →
        HasFocus fuel s1 i i = some true) ∧
      (∀ W : Nat, W < s0.length →
        ∃ s2 t2 wW, SetState defaultHooks (fuel + 4) s1 W State.ACTIVE = some (s2, t2) ∧
          FocusInvariant s2 root ∧
          s2[W]? = some wW ∧ wW.m_state = State.ACTIVE ∧
          HasFocus fuel s2 W W = some true ∧
          (∀ (V : Nat) (wV wV' : Widget), V ≠ W → s1[V]? = some wV →
            wV.m_state = State.ACTIVE → s2[V]? = some wV' →
            wV'.m_state = State.NORMAL)) := by
  obtain ⟨wr, hr⟩ := getElem?_of_lt hroot
  have hg0 : FocusTree fuel s0 root := by
    refine ⟨htree, wr, hr, ?_, ?_⟩
    · intro old ho
      rw [(hinit root wr hr).2] at ho
      cases ho
    · intro i wi hi ha
      rw [(hinit i wi hi).1] at ha
      cases ha
  obtain ⟨s1, t, h1, hg1, hlen1⟩ := runCalls_steps calls s0 hg0 hcalls
  obtain ⟨hinv1, hfoc1⟩ := hg1.invariant
  refine ⟨s1, t, h1, hinv1, hfoc1, ?_⟩
  intro W hW
  obtain ⟨s2, t2, wW, h2, hg2, _, hwW, haW, hV⟩ :=
    SetState_active_step hg1 (by rw [hlen1]; exact hW)
  obtain ⟨hinv2, hfoc2⟩ := hg2.invariant
  exact ⟨s2, t2, wW, h2, hinv2, hwW, haW, hfoc2 W wW hwW haW, hV⟩

theorem twoChildren_init (i : Nat) (w : Widget) (h : twoChildren[i]? = some w) :
    w.m_state = State.NORMAL ∧ w.m_focus_widget = none := by
  rcases i with _ | _ | _ | i <;> simp [twoChildren] at h <;> subst h <;> exact ⟨rfl, rfl⟩

theorem focus_invariant_witness :
    ∃ s1 t, runCalls (2 + 4)
        [Call.SetState 1 State.ACTIVE, Call.GrabFocus 0 2, Call.SetState 2 State.ACTIVE,
         Call.SetState 2 State.PRELIGHT, Call.SetState 1 State.ACTIVE] twoChildren =
        some (s1, t) ∧
      FocusInvariant s1 0 ∧
      (∀ (i : Nat) (wi : Widget), s1[i]? = some wi → wi.m_state = State.ACTIVE →
        HasFocus 2 s1 i i = some true) ∧
      (∀ W : Nat, W < twoChildren.length →
        ∃ s2 t2 wW, SetState defaultHooks (2 + 4) s1 W State.ACTIVE = some (s2, t2) ∧
          FocusInvariant s2 0 ∧
          s2[W]? = some wW ∧ wW.m_state = State.ACTIVE ∧
          HasFocus 2 s2 W W = some true ∧
          (∀ (V : Nat) (wV wV' : Widget), V ≠ W → s1[V]? = some wV →
            wV.m_state = State.ACTIVE → s2[V]? = some wV' →
            wV'.m_state = State.NORMAL)) :=
  focus_invariant 2 twoChildren 0
    [Call.SetState 1 State.ACTIVE, Call.GrabFocus 0 2, Call.SetState 2 State.ACTIVE,
     Call.SetState 2 State.PRELIGHT, Call.SetState 1 State.ACTIVE]
    (by decide) (by decide) twoChildren_init
    (by
      intro c hc
      simp only [List.mem_cons, List.mem_singleton, List.not_mem_nil, or_false] at hc
      rcases hc with rfl | rfl | rfl | rfl | rfl <;> simp [Call.inTree, twoChildren])

end sfg
